import Mathlib

/-!
Verification of the log-delivery subsystem of the `advanced-console-log`
logger.  Each definition is a shallow embedding of the corresponding
JavaScript source (file and line references are given in the doc comments);
the theorems settle the specified properties of the delivery pipeline:
level gating, batched-queue flushing, shutdown, file rotation/retention,
and the worker offload protocol.
-/

namespace ACLog

/-! ## Logger façade: level gate and dispatch (src/acl.js) -/

/-- Delivery mode of a logger instance (`config.mode` in src/acl.js line 53):
"regular", "async", "async-queue" or "worker". -/
inductive Mode
  | regular
  | async
  | asyncQueue
  | worker
deriving DecidableEq, Repr

/-- The caller-supplied `condition` argument.  The source checks
`typeof condition === "boolean" && !condition`, so only the boolean value
`false` suppresses a record; we model a boolean argument as `some b` and a
non-boolean argument (which the gate ignores) as `none`. -/
abbrev Cond := Option Bool

/-- The delivery-relevant slice of the logger configuration
(src/acl.js constructor, lines 53-124). -/
structure Config where
  mode : Mode
  logLevel : Nat
  outputFilename : Option String
  outputFileLogLevel : Nat
deriving DecidableEq, Repr

/-- src/acl.js lines 539-544:
`shouldLogToConsole(condition, level)` returns `false` when the condition is
the boolean `false`, otherwise `level >= this.logLevel`. -/
def shouldLogToConsole (cfg : Config) (condition : Cond) (level : Nat) : Bool :=
  if condition = some false then false
  else decide (cfg.logLevel ≤ level)

/-- src/acl.js lines 552-560:
`shouldLogToFile(condition, level)` returns `false` when `outputFilename` is
unset or the condition is the boolean `false`, otherwise
`level >= this.outputFileLogLevel`. -/
def shouldLogToFile (cfg : Config) (condition : Cond) (level : Nat) : Bool :=
  if cfg.outputFilename = none ∨ condition = some false then false
  else decide (cfg.outputFileLogLevel ≤ level)

/-- The field `this.fileLogger` is created iff `config.outputFilename` is set
(src/acl.js constructor lines 104-110 calling `_initializeFileLogger`). -/
def hasFileLogger (cfg : Config) : Bool :=
  cfg.outputFilename.isSome

/-- The field `this.workerHandler` is created iff the mode is "worker" and
`config.outputFilename` is set (constructor lines 104-124 call
`setupWorkerMode` only inside `if (config.outputFilename)`). -/
def hasWorkerHandler (cfg : Config) : Bool :=
  cfg.mode = Mode.worker && cfg.outputFilename.isSome

/-- Which sinks a record reaches. -/
structure Delivery where
  toConsole : Bool
  toFile : Bool
deriving DecidableEq, Repr

/-- src/acl.js lines 625-688, the delivery decision of
`logWithColorAndCondition(color, condition, level, logLevel, ...args)`:

* line 626: `shouldLogToConsole = this.shouldLogToConsole(condition, level)`
* lines 627-628: `shouldLogToFile = this.fileLogger && this.shouldLogToFile(condition, level)`
* line 630: early return when neither holds
* lines 679-681: console output iff `shouldLogToConsole`
* lines 683-687: `if (this.mode === "worker") this.logWithWorker(fileMessage)`
  (delivered whenever the worker handler exists, without re-checking the file
  gate) `else if (shouldLogToFile) this.logWithFileLogger(fileMessage)`. -/
def logWithColorAndCondition (cfg : Config) (condition : Cond) (level : Nat) : Delivery :=
  let stc := shouldLogToConsole cfg condition level
  let stf := hasFileLogger cfg && shouldLogToFile cfg condition level
  if !stc && !stf then ⟨false, false⟩
  else
    { toConsole := stc
      toFile := if cfg.mode = Mode.worker then hasWorkerHandler cfg else stf }

/-- src/acl.js lines 599-616, `getLogLevelName(level)`. -/
def getLogLevelName (level : Nat) : String :=
  match level with
  | 0 => "DEBUG"
  | 1 => "LOG"
  | 2 => "INFO"
  | 3 => "WARN"
  | 4 => "ERROR"
  | 5 => "FATAL"
  | _ => "UNKNOWN"

/-- Result of one public log-method call: the delivery decision together with
the `[LEVEL]` tag the file rendering would carry (from the method's display
level, the fourth argument of `logWithColorAndCondition`). -/
structure MethodCall where
  delivery : Delivery
  levelTag : String
deriving DecidableEq, Repr

/-- Shared shape of the six public methods: gate with `gateLevel`, tag with
`displayLevel` (src/acl.js lines 625, 671). -/
def methodCall (cfg : Config) (condition : Cond) (gateLevel displayLevel : Nat) : MethodCall :=
  { delivery := logWithColorAndCondition cfg condition gateLevel
    levelTag := "[" ++ getLogLevelName displayLevel ++ "]" }

/-- src/acl.js line 772: `debug` calls `logWithColorAndCondition(color, condition, 1, 0, ...)`. -/
def debugCall (cfg : Config) (condition : Cond) : MethodCall :=
  methodCall cfg condition 1 0

/-- src/acl.js line 812: `log` calls `logWithColorAndCondition(color, condition, 1, 1, ...)`. -/
def logCall (cfg : Config) (condition : Cond) : MethodCall :=
  methodCall cfg condition 1 1

/-- src/acl.js line 852: `info` calls `logWithColorAndCondition(color, condition, 1, 2, ...)`. -/
def infoCall (cfg : Config) (condition : Cond) : MethodCall :=
  methodCall cfg condition 1 2

/-- src/acl.js line 892: `warn` calls `logWithColorAndCondition(color, condition, 2, 3, ...)`. -/
def warnCall (cfg : Config) (condition : Cond) : MethodCall :=
  methodCall cfg condition 2 3

/-- src/acl.js line 932: `error` calls `logWithColorAndCondition(color, condition, 3, 4, ...)`. -/
def errorCall (cfg : Config) (condition : Cond) : MethodCall :=
  methodCall cfg condition 3 4

/-- src/acl.js line 972: `fatal` calls `logWithColorAndCondition(color, condition, 3, 5, ...)`. -/
def fatalCall (cfg : Config) (condition : Cond) : MethodCall :=
  methodCall cfg condition 3 5

/-- The configuration exhibiting C1's failure: worker mode, console threshold
1, file threshold 3. -/
def c1Cfg : Config :=
  { mode := Mode.worker, logLevel := 1, outputFilename := some "app.log",
    outputFileLogLevel := 3 }

/-! ## ANSI stripping (src/lib/formatUtils.js) and the two record renderings
(src/acl.js lines 647-677) -/

/-- The ANSI escape character U+001B. -/
def escChar : Char := Char.ofNat 27

/-- Digit test for the colour-code regex character class. -/
def isAnsiDigit (c : Char) : Bool := decide ('0' ≤ c) && decide (c ≤ '9')

/-- Head matcher for the colour-code regex `\u001b\[[0-9]{1,2}m`: when the
list begins with a (greedy, two digits preferred) match, return the
remainder after the match. -/
def ansiMatch : List Char → Option (List Char)
  | e :: '[' :: d1 :: rest2 =>
    if e = escChar && isAnsiDigit d1 then
      match rest2 with
      | d2 :: rest3 =>
        if isAnsiDigit d2 then
          match rest3 with
          | 'm' :: rest4 => some rest4
          | _ => none
        else if d2 = 'm' then some rest3
        else none
      | [] => none
    else none
  | _ => none

/-- Fuel-driven scanner: drop a colour-code match at the head, otherwise keep
the character and move on.  The fuel (one unit per character) makes the
function structurally recursive; `stripAnsiAux` supplies enough fuel. -/
def stripAnsiGo : Nat → List Char → List Char
  | 0, l => l
  | _ + 1, [] => []
  | fuel + 1, c :: rest =>
    match ansiMatch (c :: rest) with
    | some rest4 => stripAnsiGo fuel rest4
    | none => c :: stripAnsiGo fuel rest

/-- Left-to-right scanner equivalent to the global regex replace
`str.replace(/\u001b\[[0-9]{1,2}m/g, "")` of `stripAnsiCodes`
(src/lib/formatUtils.js lines 46-48). -/
def stripAnsiAux (l : List Char) : List Char := stripAnsiGo l.length l

/-- src/lib/formatUtils.js lines 46-48, `stripAnsiCodes(str)`. -/
def stripAnsiCodes (s : String) : String := ⟨stripAnsiAux s.data⟩

-- Colour constants from src/lib/constants.js.
namespace COLORS

def LIGHT_GREEN : String := "\u001b[92m"

def GREEN : String := "\u001b[32m"

def LIGHT_BLUE : String := "\u001b[94m"

def YELLOW : String := "\x1b[33m"

def LIGHT_RED : String := "\u001b[91m"

def RED : String := "\u001b[31m"

def LIGHT_CYAN : String := "\u001b[96m"

def CYAN : String := "\u001b[36m"

def LIGHT_MAGENTA : String := "\u001b[95m"

def MAGENTA : String := "\u001b[35m"

def RESET : String := "\u001b[0m"

end COLORS

/-- The local strings of `logWithColorAndCondition` from which the console
and file renderings are assembled (src/acl.js lines 632-671): `timestamp`
(already colourised, or empty), `this.memoryUsage`, `inlineCallerInfo`
(already colourised, or empty), the level `color`, the joined
`formattedMessage`, `this.space`, `callerInfo`, `stackTrace`, and the
display level used for the `[LEVEL]` tag. -/
structure RecordParts where
  timestamp : String
  memoryUsage : String
  inlineCallerInfo : String
  color : String
  formattedMessage : String
  space : String
  callerInfo : String
  stackTrace : String
  displayLevel : Nat
deriving DecidableEq, Repr

/-- src/acl.js lines 666-670: the `consoleMessage` template literal. -/
def consoleMessage (r : RecordParts) : String :=
  r.timestamp ++ r.memoryUsage ++ r.inlineCallerInfo ++ r.color ++
    r.formattedMessage ++ COLORS.RESET ++ r.space ++ r.callerInfo ++ "\n" ++
    (if r.stackTrace ≠ "" then r.stackTrace ++ "\n" else "")

/-- src/acl.js line 671: `logLevelString` is the bracketed display-level
name. -/
def logLevelString (r : RecordParts) : String :=
  "[" ++ getLogLevelName r.displayLevel ++ "]"

/-- src/acl.js lines 673-677: the `fileMessage` template literal (ANSI codes
stripped from each colourised component, with the level tag inserted after
the timestamp). -/
def fileMessage (r : RecordParts) : String :=
  stripAnsiCodes r.timestamp ++ logLevelString r ++ " " ++
    (if r.inlineCallerInfo ≠ "" then stripAnsiCodes r.inlineCallerInfo else "") ++
    stripAnsiCodes r.formattedMessage ++ r.space ++
    (if r.callerInfo ≠ "" then stripAnsiCodes r.callerInfo else "") ++ "\n" ++
    (if r.stackTrace ≠ "" then stripAnsiCodes r.stackTrace ++ "\n" else "")

/-- Strings that contain no ANSI escape character at all. -/
def AnsiFree (s : String) : Prop := escChar ∉ s.data

instance (s : String) : Decidable (AnsiFree s) :=
  inferInstanceAs (Decidable (escChar ∉ s.data))

/-- Strings whose stripping is stable under any right context: complete
colour codes and escape-free text both qualify. -/
def StripsCleanly (s : String) : Prop :=
  ∀ l : List Char, stripAnsiAux (s.data ++ l) = (stripAnsiCodes s).data ++ stripAnsiAux l

/-- The record of the C9 counterexample: a `log`-level message "hello"
carrying a memory-usage segment, with timestamp, caller info and stack
trace absent. -/
def c9Rec : RecordParts :=
  { timestamp := "", memoryUsage := "[MEM 4MB] ", inlineCallerInfo := "",
    color := COLORS.GREEN, formattedMessage := "hello", space := "",
    callerInfo := "", stackTrace := "", displayLevel := 1 }

/-- A concrete record used to instantiate the amended C9 relation: an
`info`-level record "hi" carrying a memory-usage segment, with the other
optional segments empty. -/
def c9WitnessRec : RecordParts :=
  { timestamp := "", memoryUsage := "[MEM 2MB] ", inlineCallerInfo := "",
    color := COLORS.GREEN, formattedMessage := "hi", space := "",
    callerInfo := "", stackTrace := "", displayLevel := 2 }


/-! ## FileLogHandler: the batched queue (src/handlers/FileLogHandler.js) -/

/-- State of a `FileLogHandler` (constructor lines 4-26) together with its
observable effect on the store: `writes` lists the batches handed to the
underlying write, in order, and `errors` counts reports through the injected
error handler. -/
structure HandlerState where
  logQueue : List String
  isFlushing : Bool
  isShuttingDown : Bool
  isClosed : Bool
  writes : List (List String)
  errors : Nat
deriving DecidableEq, Repr

/-- A freshly constructed handler (lines 15-19). -/
def initialHandler : HandlerState :=
  { logQueue := [], isFlushing := false, isShuttingDown := false,
    isClosed := false, writes := [], errors := 0 }

/-- The payload string of one flush, line 52:
the queued records joined with the empty string, plus one trailing
newline. -/
def flushPayload (batch : List String) : String :=
  String.join batch ++ "\n"

/-- src/handlers/FileLogHandler.js lines 47-68, `flushQueue()`: a no-op when
already flushing, closed, or the queue is empty; otherwise set `isFlushing`,
capture and clear the queue, write the payload in a single store write (a
failing write is reported via the error handler, not re-thrown), and clear
`isFlushing` in the `finally`.  `writeFails` models the outcome of the
underlying store write. -/
def flushQueue (writeFails : Bool) (s : HandlerState) : HandlerState :=
  if s.isFlushing || s.isClosed || s.logQueue.isEmpty then s
  else if writeFails then
    { s with logQueue := [], isFlushing := false, errors := s.errors + 1 }
  else
    { s with logQueue := [], isFlushing := false,
             writes := s.writes ++ [s.logQueue] }

/-- src/handlers/FileLogHandler.js lines 37-45, `enqueueLog(message)`: a
no-op when shutting down or closed; otherwise push the message and flush
once the queue reaches `queueBatchSize`. -/
def enqueueLog (queueBatchSize : Nat) (writeFails : Bool) (message : String)
    (s : HandlerState) : HandlerState :=
  if s.isShuttingDown || s.isClosed then s
  else
    let s1 := { s with logQueue := s.logQueue ++ [message] }
    if queueBatchSize ≤ s1.logQueue.length then flushQueue writeFails s1 else s1

/-- One iteration of the background loop body `setupAsyncQueueMode`
(lines 28-35): while not shutting down, flush when the queue is non-empty,
then wait `flushInterval` (the wait itself is immaterial to the state). -/
def flushTick (writeFails : Bool) (s : HandlerState) : HandlerState :=
  if !s.isShuttingDown && !s.logQueue.isEmpty then flushQueue writeFails s else s

/-- src/handlers/FileLogHandler.js lines 89-99, `close()`: a no-op once
shutting down or closed; otherwise set `isShuttingDown` (after which the
background loop exits on its next check), run one final `flushQueue()`,
then set `isClosed`. -/
def closeHandler (writeFails : Bool) (s : HandlerState) : HandlerState :=
  if s.isShuttingDown || s.isClosed then s
  else
    let s1 := { s with isShuttingDown := true }
    let s2 := flushQueue writeFails s1
    { s2 with isClosed := true }

/-- Client-visible events before the close: an `enqueueLog` call or one
background-loop iteration. -/
inductive HandlerOp
  | enq (message : String)
  | tick
deriving DecidableEq, Repr

/-- Apply one operation, with the store write succeeding. -/
def applyOp (queueBatchSize : Nat) (s : HandlerState) : HandlerOp → HandlerState
  | .enq m => enqueueLog queueBatchSize false m s
  | .tick => flushTick false s

/-- Run a sequence of operations from a fresh handler. -/
def runHandler (queueBatchSize : Nat) (ops : List HandlerOp) : HandlerState :=
  ops.foldl (applyOp queueBatchSize) initialHandler

/-- The messages a sequence of operations enqueues, in order. -/
def opMessages (ops : List HandlerOp) : List String :=
  ops.filterMap fun op => match op with
    | .enq m => some m
    | .tick => none

/-- The invariant tying a running handler to the messages accepted so far:
flags down, no errors, and the batches written plus the pending queue are
exactly the accepted messages in order. -/
def HandlerInv (msgs : List String) (s : HandlerState) : Prop :=
  s.isFlushing = false ∧ s.isShuttingDown = false ∧ s.isClosed = false ∧
    s.errors = 0 ∧ s.writes.flatten ++ s.logQueue = msgs

/-- The handler with its asynchrony made explicit.  `flushQueue()` holds
`isFlushing` across `await this.writeToFileAsync(...)` (lines 48-67), and
`enqueueLog` fires `this.flushQueue()` without awaiting it (line 42), so
between a flush's start and the completion of its stream write the rest of
the program keeps running.  `inFlight` is the captured payload whose stream
write is pending (`isFlushing` is exactly `inFlight.isSome`); `writes`
lists the payloads whose stream write has completed; `loopExited` records
that `setupAsyncQueueMode`'s promise (`flushPromise`) has resolved;
`closeAwait` records that `close()` is awaiting a flush it started
itself. -/
structure AsyncHandler where
  logQueue : List String
  inFlight : Option String
  writes : List String
  isShuttingDown : Bool
  isClosed : Bool
  loopExited : Bool
  closeAwait : Bool
deriving DecidableEq, Repr

/-- A freshly constructed `async-queue` handler (lines 15-25). -/
def initialAsync : AsyncHandler :=
  { logQueue := [], inFlight := none, writes := [], isShuttingDown := false,
    isClosed := false, loopExited := false, closeAwait := false }

/-- `flushQueue()` run synchronously up to its first `await` (lines 47-57):
the guard returns when a flush is in progress, the handler is closed, or
the queue is empty; otherwise `isFlushing` is set, the queue is captured as
`join("") + "\n"` and cleared, and the stream write starts. -/
def aFlushBegin (s : AsyncHandler) : AsyncHandler :=
  if s.inFlight.isSome || s.isClosed || s.logQueue.isEmpty then s
  else { s with inFlight := some (String.join s.logQueue ++ "\n")
                logQueue := [] }

/-- The pending stream write's callback fires: the payload reaches the
store, `writeToFileAsync` resolves, and `flushQueue`'s `finally` clears
`isFlushing` (lines 57, 66, 70-87).  When `close()` was awaiting this
flush, it resumes and sets `isClosed` (line 97). -/
def aWriteDone (s : AsyncHandler) : AsyncHandler :=
  match s.inFlight with
  | none => s
  | some p =>
    let s1 := { s with writes := s.writes ++ [p]
                       inFlight := none }
    if s1.closeAwait then
      { s1 with isClosed := true
                closeAwait := false }
    else s1

/-- `enqueueLog(message)` (lines 37-45): a no-op when shutting down or
closed; otherwise push the message and, at `queueBatchSize`, fire
`flushQueue()` **without awaiting it** — only its synchronous prefix runs
here. -/
def aEnqueue (queueBatchSize : Nat) (m : String) (s : AsyncHandler) :
    AsyncHandler :=
  if s.isShuttingDown || s.isClosed then s
  else
    let s1 := { s with logQueue := s.logQueue ++ [m] }
    if queueBatchSize ≤ s1.logQueue.length then aFlushBegin s1 else s1

/-- The background loop's `delay` fires and the loop re-checks its
condition (lines 28-35): once `isShuttingDown` it exits, resolving
`flushPromise`; otherwise it starts a flush when the queue is
non-empty. -/
def aLoopWake (s : AsyncHandler) : AsyncHandler :=
  if s.isShuttingDown then { s with loopExited := true }
  else if s.logQueue.isEmpty then s
  else aFlushBegin s

/-- `close()` run up to `await this.flushPromise` (lines 89-94): a no-op
once shutting down or closed, otherwise it sets `isShuttingDown`. -/
def aCloseBegin (s : AsyncHandler) : AsyncHandler :=
  if s.isShuttingDown || s.isClosed then s
  else { s with isShuttingDown := true }

/-- `close()` resumes after `flushPromise` resolves (lines 96-98): it runs
`await this.flushQueue()`.  When the guard fails — in particular when a
fire-and-forget flush is still in flight, `isFlushing` being `true` — the
call returns at once and `isClosed` is set immediately; otherwise the final
flush starts and `close()` awaits its completion. -/
def aCloseResume (s : AsyncHandler) : AsyncHandler :=
  if s.isShuttingDown && s.loopExited && !s.isClosed && !s.closeAwait then
    if s.inFlight.isSome || s.isClosed || s.logQueue.isEmpty then
      { s with isClosed := true }
    else { aFlushBegin s with closeAwait := true }
  else s

/-- A scheduler event: a client call running to its next suspension point,
or an asynchronous completion. -/
inductive AEvent
  | enqueue (m : String)
  | writeDone
  | loopWake
  | closeBegin
  | closeResume
deriving DecidableEq, Repr

def aStep (queueBatchSize : Nat) (s : AsyncHandler) : AEvent → AsyncHandler
  | .enqueue m => aEnqueue queueBatchSize m s
  | .writeDone => aWriteDone s
  | .loopWake => aLoopWake s
  | .closeBegin => aCloseBegin s
  | .closeResume => aCloseResume s

def aRun (queueBatchSize : Nat) (es : List AEvent) (s : AsyncHandler) :
    AsyncHandler :=
  es.foldl (aStep queueBatchSize) s

/-- The data-losing schedule, legal for `queueBatchSize = 1`: enqueueing
"a" starts a flush whose stream write stays pending; "b" is enqueued (its
fired flush no-ops on `isFlushing`); `close()` runs, the loop's delay
fires and the loop exits, `close()` resumes — its final `flushQueue()`
no-ops on `isFlushing` — and `isClosed` is set; only then does the stream
write of "a\n" complete. -/
def c4LossSchedule : List AEvent :=
  [AEvent.enqueue "a", AEvent.enqueue "b", AEvent.closeBegin,
   AEvent.loopWake, AEvent.closeResume, AEvent.writeDone]

def c4LossState : AsyncHandler := aRun 1 c4LossSchedule initialAsync


/-! ## FileLogger: rotation and retention (src/core/FileLogger.js) -/

/-- A tiny single-directory filesystem.  `inodes` maps inode ids (list
indices) to file contents — an inode keeps its identity across a rename,
exactly like a real file followed by an open descriptor; `names` maps file
names to inode ids. -/
structure MiniFS where
  inodes : List String
  names : List (String × Nat)
deriving DecidableEq, Repr

def MiniFS.lookup (fs : MiniFS) (name : String) : Option Nat :=
  (fs.names.find? (fun p => p.1 == name)).map (fun p => p.2)

/-- `fs.renameSync(src, dst)`: the inode keeps its content, only the name
changes (an existing `dst` entry is overwritten). -/
def MiniFS.rename (fs : MiniFS) (src dst : String) : MiniFS :=
  match fs.lookup src with
  | none => fs
  | some i =>
    { fs with
      names := (fs.names.filter fun p => !(p.1 == src) && !(p.1 == dst)) ++ [(dst, i)] }

/-- `fs.unlinkSync(name)`. -/
def MiniFS.unlink (fs : MiniFS) (name : String) : MiniFS :=
  { fs with names := fs.names.filter fun p => !(p.1 == name) }

/-- A write through an open descriptor appends to the inode the stream was
opened on, regardless of what the name now points to. -/
def MiniFS.appendInode (fs : MiniFS) (i : Nat) (data : String) : MiniFS :=
  { fs with inodes := fs.inodes.set i ((fs.inodes.getD i "") ++ data) }

/-- State of a `FileLogger` (constructor lines 20-49) over the mini
filesystem: the cached `currentFileSize`, the `rotatedFiles` cache, the
cached `directoryExists` flag, and `streamInode`, the inode the write
stream was opened on. -/
structure FileLoggerState where
  outputFilename : String
  maxLogFileSizeMB : Nat
  maxLogFiles : Nat
  currentFileSize : Nat
  rotatedFiles : List String
  directoryExists : Bool
  streamInode : Nat
  fs : MiniFS
  errors : Nat
deriving DecidableEq, Repr

/-- `path.basename(p, path.extname(p))` for a bare file name: the name with
its last extension removed. -/
def baseNameNoExt (p : String) : String :=
  match p.data.reverse.dropWhile (fun c => !(c == '.')) with
  | [] => p
  | _ :: restRev => ⟨restRev.reverse⟩

/-- `new Date().toISOString().replace(/[:.]/g, "-")` applied to the given
timestamp string (lines 245, 271). -/
def sanitizeTimestamp (ts : String) : String :=
  ⟨ts.data.map fun c => if c == ':' || c == '.' then '-' else c⟩

/-- The rotated file name `${baseFilename}-${timestamp}.log` (line 246). -/
def rotatedName (outputFilename ts : String) : String :=
  baseNameNoExt outputFilename ++ "-" ++ sanitizeTimestamp ts ++ ".log"

/-- Result of `_enforceRetention`: the remaining cache, the files whose
deletion was attempted (in order), and the number of delete failures
reported. -/
structure RetentionResult where
  remaining : List String
  deleted : List String
  errors : Nat
deriving DecidableEq, Repr

/-- src/core/FileLogger.js lines 308-317, `_enforceRetention()`: while the
cache exceeds `maxLogFiles`, shift the oldest entry off the front and
delete that file from disk; a delete failure (modelled by the `deleteFails`
oracle) is reported via the error handler and the loop continues with the
remaining excess files. -/
def enforceRetention (maxLogFiles : Nat) (deleteFails : String → Bool) :
    List String → RetentionResult
  | [] => { remaining := [], deleted := [], errors := 0 }
  | f :: rest =>
    if maxLogFiles < (f :: rest).length then
      let r := enforceRetention maxLogFiles deleteFails rest
      { remaining := r.remaining, deleted := f :: r.deleted,
        errors := r.errors + (if deleteFails f then 1 else 0) }
    else { remaining := f :: rest, deleted := [], errors := 0 }

/-- The same loop acting on the mini filesystem: deleting a file that is
absent throws, which the source catches, reports, and survives. -/
def enforceRetentionFS (maxLogFiles : Nat) :
    List String → MiniFS → Nat → List String × MiniFS × Nat
  | [], fs, errs => ([], fs, errs)
  | f :: rest, fs, errs =>
    if maxLogFiles < (f :: rest).length then
      match fs.lookup f with
      | some _ => enforceRetentionFS maxLogFiles rest (fs.unlink f) errs
      | none => enforceRetentionFS maxLogFiles rest fs (errs + 1)
    else (f :: rest, fs, errs)

/-- src/core/FileLogger.js lines 239-257, `_rotateFiles()`: build the
rotated name; when `directoryExists` is unset, call
`_createLogFileIfNotExists` — a method that is NOWHERE DEFINED in the
class, so the call raises (modelled by `none`); rename the current file to
the rotated name (raises when the file is absent), reset
`currentFileSize` to 0, push the rotated name onto the cache, and enforce
retention.  NOTE: no file is created or re-opened at the original path and
the write stream is untouched. -/
def rotateFiles (ts : String) (st : FileLoggerState) : Option FileLoggerState :=
  let rotatedFilename := rotatedName st.outputFilename ts
  if !st.directoryExists then
    none
  else
    match st.fs.lookup st.outputFilename with
    | none => none
    | some _ =>
      let fs1 := st.fs.rename st.outputFilename rotatedFilename
      let cache1 := st.rotatedFiles ++ [rotatedFilename]
      let r := enforceRetentionFS st.maxLogFiles cache1 fs1 0
      some { st with fs := r.2.1, currentFileSize := 0,
                     rotatedFiles := r.1, errors := st.errors + r.2.2 }

/-- src/core/FileLogger.js lines 215-220 and 171-179:
`writeToFile(message)` first runs `rotateLogFilesIfNeeded()` (rotate when
`currentFileSize / (1024*1024) >= maxLogFileSizeMB`), then writes through
the open stream — i.e. appends to the inode the stream was opened on — and
increments the cached size by the byte length of the message (modelled as
its length); any exception is caught and reported via the error handler. -/
def writeToFile (ts : String) (message : String) (st : FileLoggerState) :
    FileLoggerState :=
  if st.maxLogFileSizeMB ≤ st.currentFileSize / (1024 * 1024) then
    match rotateFiles ts st with
    | none => { st with errors := st.errors + 1 }
    | some st1 =>
      { st1 with fs := st1.fs.appendInode st1.streamInode message,
                 currentFileSize := st1.currentFileSize + message.length }
  else
    { st with fs := st.fs.appendInode st.streamInode message,
              currentFileSize := st.currentFileSize + message.length }

/-- The concrete logger of the C5 failing input: "app.log" holds 1 MiB
(the cache agrees), threshold 1 MiB, stream opened on inode 0. -/
def c5St : FileLoggerState :=
  { outputFilename := "app.log", maxLogFileSizeMB := 1, maxLogFiles := 5,
    currentFileSize := 1048576, rotatedFiles := [], directoryExists := true,
    streamInode := 0, fs := { inodes := ["OLD"], names := [("app.log", 0)] },
    errors := 0 }


/-! ## Logger façade shutdown (src/acl.js lines 310-343) -/

/-- The shutdown-relevant state of the façade, with one flag per shutdown
step so the effect of `close()` is observable. -/
structure AclState where
  isClosing : Bool
  isClosed : Bool
  hasFileLogHandler : Bool
  hasWorkerHandler : Bool
  memorySamplingStopped : Bool
  flushCalled : Bool
  handlerClosed : Bool
  loggerClosed : Bool
  workerClosed : Bool
  errorsReported : Nat
deriving DecidableEq, Repr

/-- The body of the `try` block of `close()` (src/acl.js lines 319-337).
Its first statement, line 320, reads the BARE identifier
`includeMemoryUsage` — not `this.includeMemoryUsage` — and no such binding
exists in any enclosing scope, so evaluating the condition raises a
ReferenceError before any shutdown step runs.  The remaining steps are
kept, faithful to the source order: stop memory sampling → flush the
delivery-handler queue → close handler and file store → close the worker →
mark closed. -/
def aclCloseBody (s : AclState) : Except String AclState := do
  let cond ← (Except.error "ReferenceError: includeMemoryUsage is not defined" :
    Except String Bool)
  let s1 := if cond then { s with memorySamplingStopped := true } else s
  let s2 := if s1.hasFileLogHandler then { s1 with flushCalled := true } else s1
  let s3 := { s2 with handlerClosed := s2.hasFileLogHandler, loggerClosed := true }
  let s4 := if s3.hasWorkerHandler then { s3 with workerClosed := true } else s3
  Except.ok { s4 with isClosed := true }

/-- src/acl.js lines 310-343, `close()`: return early when `isClosing` or
`isClosed`; set `isClosing`; run the whole sequence of shutdown steps
inside ONE `try` whose single `catch` reports the error (so a throw in any
step skips every later step); reset `isClosing` in the `finally`. -/
def aclClose (s : AclState) : AclState :=
  if s.isClosing || s.isClosed then s
  else
    match aclCloseBody { s with isClosing := true } with
    | .ok s2 => { s2 with isClosing := false }
    | .error _ =>
      { s with isClosing := false, errorsReported := s.errorsReported + 1 }

/-- The C7 failing input: an open logger with both a file-log handler and a
worker handler. -/
def c7St : AclState :=
  { isClosing := false, isClosed := false, hasFileLogHandler := true,
    hasWorkerHandler := true, memorySamplingStopped := false,
    flushCalled := false, handlerClosed := false, loggerClosed := false,
    workerClosed := false, errorsReported := 0 }


/-! ## Worker offload protocol (src/workers/logWorker.js and the
WorkerHandler of src/handlers/FileLogHandler.js) -/

/-- Messages on the main→worker channel: a log payload string or the
literal control token "close". -/
inductive MMsg
  | payload (content : String)
  | close
deriving DecidableEq, Repr

/-- Messages on the worker→main channel: the literal tokens "processed"
and "closed". -/
inductive WMsg
  | processed
  | closed
deriving DecidableEq, Repr

/-- Worker-side state (src/workers/logWorker.js lines 4-6) plus the ghost
instrumentation needed to state the protocol facts: `pending` is the
worker's `pendingMessages`; `closeWaiting` holds while the "close" handler
is suspended in `flushPendingMessagesAndExit`; `received` counts payload
handlers started and `written` completed appends; `closeSeenDrained`
records whether `pendingMessages` was zero when "close" was dispatched;
`drainOk` stays true as long as every "closed" was posted with all
received payloads already written. -/
structure WState where
  pending : Nat
  closeSignalReceived : Bool
  closeWaiting : Bool
  received : Nat
  written : Nat
  closeSeenDrained : Option Bool
  drainOk : Bool
deriving DecidableEq, Repr

def WState.init : WState :=
  { pending := 0, closeSignalReceived := false, closeWaiting := false,
    received := 0, written := 0, closeSeenDrained := none, drainOk := true }

/-- Worker events: dispatch of the next incoming message (the synchronous
part of the `parentPort.on("message")` handler, up to its first await),
completion of one in-flight `writeToFileAsync` (lines 18-22), and the
resumption of the suspended close handler after its drain loop observes
`pendingMessages == 0` (lines 14-16 and 46-52). -/
inductive WEvent
  | recv
  | complete
  | resume
deriving DecidableEq, Repr

/-- One worker step: `some (state, remaining input, posted messages)`, or
`none` when the event is not enabled.

* `recv` of a payload (lines 18-19): `pendingMessages++`, the append starts.
* `recv` of "close" (lines 13-16): set `closeSignalReceived`; when nothing
  is pending the handler falls straight through
  `flushPendingMessagesAndExit` and posts "closed"; otherwise it suspends
  in the drain loop.
* `complete` (lines 20-23): `pendingMessages--`, post "processed", then
  `sendClosedSignalIfNeeded()` posts "closed" when a close was received
  and nothing is pending any more (lines 30-34).
* `resume` (lines 15-16): the suspended close handler resumes once
  `pendingMessages == 0` and posts "closed" unconditionally. -/
def wstep (e : WEvent) (s : WState) (inq : List MMsg) :
    Option (WState × List MMsg × List WMsg) :=
  match e, inq with
  | .recv, MMsg.payload _ :: q =>
    some ({ s with pending := s.pending + 1, received := s.received + 1 }, q, [])
  | .recv, MMsg.close :: q =>
    if s.pending = 0 then
      some ({ s with
        closeSignalReceived := true
        closeSeenDrained := some true
        drainOk := s.drainOk && (s.received == s.written) }, q, [WMsg.closed])
    else
      some ({ s with
        closeSignalReceived := true
        closeSeenDrained := some false
        closeWaiting := true }, q, [])
  | .recv, [] => none
  | .complete, q =>
    if s.pending = 0 then none
    else
      let p := s.pending - 1
      if s.closeSignalReceived && p == 0 then
        some ({ s with
          pending := p
          written := s.written + 1
          drainOk := s.drainOk && (s.received == s.written + 1) }, q,
          [WMsg.processed, WMsg.closed])
      else
        some ({ s with pending := p, written := s.written + 1 }, q, [WMsg.processed])
  | .resume, q =>
    if s.closeWaiting && s.pending == 0 then
      some ({ s with
        closeWaiting := false
        drainOk := s.drainOk && (s.received == s.written) }, q, [WMsg.closed])
    else none

/-- Run a list of worker events, accumulating the posted messages. -/
def wrun : List WEvent → WState → List MMsg →
    Option (WState × List MMsg × List WMsg)
  | [], s, inq => some (s, inq, [])
  | e :: es, s, inq =>
    match wstep e s inq with
    | none => none
    | some (s1, q1, out1) =>
      match wrun es s1 q1 with
      | none => none
      | some (s2, q2, out2) => some (s2, q2, out1 ++ out2)

/-- Inputs of the shape the protocol prescribes: log payloads followed by
at most one final "close" token. -/
def GoodInput : List MMsg → Prop
  | [] => True
  | MMsg.close :: rest => rest = []
  | MMsg.payload _ :: rest => GoodInput rest

/-- The number of "closed" posts the worker still owes from state `s`,
written as a function of the state: none before "close" is dispatched; one
(already posted) when "close" arrived drained; while draining, zero until
the last append's check fires, one more when the close handler resumes. -/
def closedFn (s : WState) : Nat :=
  if s.closeSignalReceived = false then 0
  else if s.closeSeenDrained = some true then 1
  else if 0 < s.pending then 0
  else if s.closeWaiting then 1 else 2

/-- The inductive invariant of a worker run: counter arithmetic, the drain
ghost, the shape of the remaining input, and the exact count `cc` of
"closed" (and `pc` of "processed") tokens posted so far. -/
structure WInvP (s : WState) (inq : List MMsg) (cc pc : Nat) : Prop where
  pend : s.pending = s.received - s.written
  wr : s.written ≤ s.received
  ok : s.drainOk = true
  proc : pc = s.written
  waiting : s.closeWaiting = true →
    s.closeSignalReceived = true ∧ s.closeSeenDrained = some false
  signal : s.closeSignalReceived = true ↔ s.closeSeenDrained.isSome
  consumed : s.closeSignalReceived = true → inq = []
  good : GoodInput inq
  drained : s.closeSeenDrained = some true → s.pending = 0
  draining : s.closeSeenDrained = some false → 0 < s.pending →
    s.closeWaiting = true
  closedCount : cc = closedFn s


/-- Phase of the main-side `closeWorker()` control flow
(src/handlers/FileLogHandler.js lines 200-217). -/
inductive ClosePhase
  | idle
  | waitDrain
  | waitClosed
  | done
deriving DecidableEq, Repr

/-- Main-thread `WorkerHandler` state (constructor lines 132-143):
`pendingMessages`, `closeSignalSent`, `isClosed`, the `closeWorker()`
phase, plus the ghost counters `sent` (total `logToWorker` calls) and
`processedAcks` ("processed" acknowledgments received). -/
structure MainState where
  pendingMessages : Nat
  closeSignalSent : Bool
  isClosed : Bool
  phase : ClosePhase
  sent : Nat
  processedAcks : Nat
deriving DecidableEq, Repr

/-- The composed system: the main-side handler, the worker, and the two
ordered message channels between them. -/
structure Sys where
  main : MainState
  worker : WState
  toWorker : List MMsg
  toMain : List WMsg
deriving DecidableEq, Repr

/-- The freshly initialised system. -/
def Sys.start : Sys :=
  { main := { pendingMessages := 0, closeSignalSent := false, isClosed := false,
              phase := ClosePhase.idle, sent := 0, processedAcks := 0 },
    worker := WState.init, toWorker := [], toMain := [] }

/-- Number of log payloads queued on the main→worker channel. -/
def payCount (q : List MMsg) : Nat :=
  q.countP fun m => match m with
    | MMsg.payload _ => true
    | MMsg.close => false

/-- Number of "close" tokens queued on the main→worker channel. -/
def closeCount (q : List MMsg) : Nat := q.count MMsg.close

/-- Number of "processed" acknowledgments queued on the worker→main
channel. -/
def procCount (l : List WMsg) : Nat := l.count WMsg.processed

/-- Number of "closed" acknowledgments queued on the worker→main channel. -/
def closedCount (l : List WMsg) : Nat := l.count WMsg.closed

/-- One interleaved step of the composed system.  The main-side steps are
the WorkerHandler's: `logToWorker` (lines 189-194) increments
`pendingMessages` and posts the payload; `closeWorker()` starts
(line 201) setting `closeSignalSent`; `waitForPendingMessages()`
resolves only when `pendingMessages` is zero (lines 203-204, 223-226),
after which isClosed is reset and "close" is posted (lines 206-208);
`handleWorkerMessage` (lines 172-183) dequeues one acknowledgment,
decrementing `pendingMessages` on "processed" and setting `isClosed` on
"closed"; and once the "closed" acknowledgment has arrived the worker is
terminated (lines 211-215).  The worker side takes `wstep` steps.  Log
calls happen before `closeWorker()` (phase `idle`), matching the claim's
"sequence of logToWorker calls followed by one closeWorker()". -/
inductive SysStep : Sys → Sys → Prop
  | logToWorker (sys : Sys) (m : String)
      (h : sys.main.phase = ClosePhase.idle) :
      SysStep sys
        { sys with
          main := { sys.main with
            pendingMessages := sys.main.pendingMessages + 1
            sent := sys.main.sent + 1 }
          toWorker := sys.toWorker ++ [MMsg.payload m] }
  | startClose (sys : Sys) (h : sys.main.phase = ClosePhase.idle) :
      SysStep sys
        { sys with
          main := { sys.main with
            closeSignalSent := true
            phase := ClosePhase.waitDrain } }
  | drainResolved (sys : Sys) (h1 : sys.main.phase = ClosePhase.waitDrain)
      (h2 : sys.main.pendingMessages = 0) :
      SysStep sys
        { sys with
          main := { sys.main with
            isClosed := false
            phase := ClosePhase.waitClosed }
          toWorker := sys.toWorker ++ [MMsg.close] }
  | recvProcessed (sys : Sys) (rest : List WMsg)
      (h : sys.toMain = WMsg.processed :: rest) :
      SysStep sys
        { sys with
          main := { sys.main with
            pendingMessages := sys.main.pendingMessages - 1
            processedAcks := sys.main.processedAcks + 1 }
          toMain := rest }
  | recvClosed (sys : Sys) (rest : List WMsg)
      (h : sys.toMain = WMsg.closed :: rest) :
      SysStep sys
        { sys with
          main := { sys.main with isClosed := true }
          toMain := rest }
  | finishClose (sys : Sys) (h1 : sys.main.phase = ClosePhase.waitClosed)
      (h2 : sys.main.isClosed = true) :
      SysStep sys
        { sys with main := { sys.main with phase := ClosePhase.done } }
  | workerStep (sys : Sys) (e : WEvent) (w1 : WState) (q1 : List MMsg)
      (out1 : List WMsg)
      (h : wstep e sys.worker sys.toWorker = some (w1, q1, out1)) :
      SysStep sys
        { sys with worker := w1, toWorker := q1, toMain := sys.toMain ++ out1 }

/-- Reachability from the fresh system. -/
inductive SysReach : Sys → Prop
  | start : SysReach Sys.start
  | step {a b : Sys} : SysReach a → SysStep a b → SysReach b

/-- The inductive invariant of the composed system. -/
structure SysInv (sys : Sys) : Prop where
  mpend : sys.main.pendingMessages = sys.main.sent - sys.main.processedAcks
  ackle : sys.main.processedAcks ≤ sys.main.sent
  sentSplit : sys.main.sent = payCount sys.toWorker + sys.worker.received
  wpend : sys.worker.pending = sys.worker.received - sys.worker.written
  wwr : sys.worker.written ≤ sys.worker.received
  procSplit : procCount sys.toMain + sys.main.processedAcks = sys.worker.written
  good : GoodInput sys.toWorker
  waitingFalse : sys.worker.closeWaiting = false
  closeToken : sys.main.phase = ClosePhase.waitClosed ∨
      sys.main.phase = ClosePhase.done →
    closeCount sys.toWorker +
      (if sys.worker.closeSignalReceived then 1 else 0) = 1
  noCloseEarly : sys.main.phase = ClosePhase.idle ∨
      sys.main.phase = ClosePhase.waitDrain →
    closeCount sys.toWorker = 0 ∧ sys.worker.closeSignalReceived = false
  drainedAtClose : sys.main.phase = ClosePhase.waitClosed ∨
      sys.main.phase = ClosePhase.done →
    sys.main.processedAcks = sys.main.sent ∧
    sys.worker.written = sys.worker.received ∧
    payCount sys.toWorker = 0 ∧ procCount sys.toMain = 0
  closedOrigin : 0 < closedCount sys.toMain ∨ sys.main.isClosed = true →
    sys.worker.closeSignalReceived = true
  signalPhase : sys.worker.closeSignalReceived = true →
    sys.main.phase = ClosePhase.waitClosed ∨ sys.main.phase = ClosePhase.done
  doneClosed : sys.main.phase = ClosePhase.done → sys.main.isClosed = true

end ACLog

open ACLog

/-- C1 counterexample: in worker mode with console threshold 1 and file
threshold 3, a record at level 1 with condition `true` IS delivered to the
file sink (forwarded to the worker) although `1 >= 3` fails, so delivery to
the file sink is not equivalent to passing the file sink's level gate. -/
theorem c1_worker_mode_counterexample :
    (logWithColorAndCondition c1Cfg (some true) 1).toFile = true ∧
      ¬ (c1Cfg.outputFileLogLevel ≤ 1) := by
  decide

/-- C1 (amended): the console sink receives a record iff the condition is not
the boolean `false` and `level >= logLevel`; in every non-worker mode the
file sink receives it iff additionally `outputFilename` is configured and
`level >= outputFileLogLevel`, the two thresholds being evaluated
independently; without `outputFilename` the file sink never receives a
record; but in worker mode the record is forwarded to the worker-backed file
sink whenever it passes either sink's gate. -/
theorem c1_level_gate_amended (cfg : Config) (condition : Cond) (level : Nat) :
    ((logWithColorAndCondition cfg condition level).toConsole = true ↔
      (condition ≠ some false ∧ cfg.logLevel ≤ level)) ∧
    (cfg.mode ≠ Mode.worker →
      ((logWithColorAndCondition cfg condition level).toFile = true ↔
        (cfg.outputFilename ≠ none ∧ condition ≠ some false ∧
          cfg.outputFileLogLevel ≤ level))) ∧
    (cfg.outputFilename = none →
      (logWithColorAndCondition cfg condition level).toFile = false) ∧
    (cfg.mode = Mode.worker → cfg.outputFilename ≠ none →
      ((logWithColorAndCondition cfg condition level).toFile = true ↔
        (condition ≠ some false ∧
          (cfg.logLevel ≤ level ∨ cfg.outputFileLogLevel ≤ level)))) := by
  obtain ⟨mode, ll, ofn, fll⟩ := cfg
  simp only [logWithColorAndCondition, shouldLogToConsole, shouldLogToFile,
    hasFileLogger, hasWorkerHandler]
  rcases ofn with _ | fn <;> rcases mode <;>
    by_cases hc : condition = some false <;>
      by_cases h1 : ll ≤ level <;> by_cases h2 : fll ≤ level <;>
        simp_all

/-- Witness for `c1_level_gate_amended` at a concrete input: regular mode,
file threshold 3, level 3, non-boolean condition — the record reaches the
file sink. -/
theorem c1_level_gate_amended_witness :
    (logWithColorAndCondition
        { mode := Mode.regular, logLevel := 2, outputFilename := some "a.log",
          outputFileLogLevel := 3 } none 3).toFile = true := by
  have h := c1_level_gate_amended
    { mode := Mode.regular, logLevel := 2, outputFilename := some "a.log",
      outputFileLogLevel := 3 } none 3
  exact (h.2.1 (by decide)).mpr (by decide)

/-- C10: `debug`, `log` and `info` all gate with severity level 1
(src/acl.js lines 772, 812, 852), so for every configuration and condition
the three calls make identical console and file delivery decisions — even
though their records carry different `[LEVEL]` tags. -/
theorem c10_debug_log_info_equal (cfg : Config) (condition : Cond) :
    (debugCall cfg condition).delivery = (logCall cfg condition).delivery ∧
    (logCall cfg condition).delivery = (infoCall cfg condition).delivery ∧
    (debugCall cfg condition).levelTag = "[DEBUG]" ∧
    (logCall cfg condition).levelTag = "[LOG]" ∧
    (infoCall cfg condition).levelTag = "[INFO]" := by
  exact ⟨rfl, rfl, rfl, rfl, rfl⟩

theorem ansiMatch_length_lt {l r : List Char} (h : ansiMatch l = some r) :
    r.length < l.length := by
  rw [ansiMatch.eq_def] at h
  split at h
  · split at h
    · split at h
      · split at h
        · split at h
          · injection h with h
            subst h
            simp
            omega
          · exact absurd h (by simp)
        · split at h
          · injection h with h
            subst h
            simp
            omega
          · exact absurd h (by simp)
      · exact absurd h (by simp)
    · exact absurd h (by simp)
  · exact absurd h (by simp)

theorem ansiMatch_cons_ne {c : Char} {rest : List Char} (h : ¬ c = escChar) :
    ansiMatch (c :: rest) = none := by
  rw [ansiMatch.eq_def]
  split <;> simp_all

theorem isAnsiDigit_m : isAnsiDigit 'm' = false := by decide

theorem ansiMatch_code2 {d1 d2 : Char} (h1 : isAnsiDigit d1 = true)
    (h2 : isAnsiDigit d2 = true) (l : List Char) :
    ansiMatch (escChar :: '[' :: d1 :: d2 :: 'm' :: l) = some l := by
  simp [ansiMatch, h1, h2]

theorem ansiMatch_code1 {d1 : Char} (h1 : isAnsiDigit d1 = true) (l : List Char) :
    ansiMatch (escChar :: '[' :: d1 :: 'm' :: l) = some l := by
  simp [ansiMatch, h1, isAnsiDigit_m]

theorem stripAnsiGo_nil (f : Nat) : stripAnsiGo f [] = [] := by
  cases f <;> rfl

theorem stripAnsiGo_congr :
    ∀ (f f' : Nat) (l : List Char), l.length ≤ f → l.length ≤ f' →
      stripAnsiGo f l = stripAnsiGo f' l := by
  intro f
  induction f with
  | zero =>
    intro f' l hf _
    have : l = [] := List.eq_nil_of_length_eq_zero (Nat.le_zero.mp hf)
    subst this
    rw [stripAnsiGo_nil, stripAnsiGo_nil]
  | succ f ih =>
    intro f' l hf hf'
    cases l with
    | nil => rw [stripAnsiGo_nil, stripAnsiGo_nil]
    | cons c rest =>
      cases f' with
      | zero => simp at hf'
      | succ f2 =>
        show (match ansiMatch (c :: rest) with
            | some rest4 => stripAnsiGo f rest4
            | none => c :: stripAnsiGo f rest) =
          (match ansiMatch (c :: rest) with
            | some rest4 => stripAnsiGo f2 rest4
            | none => c :: stripAnsiGo f2 rest)
        cases hm : ansiMatch (c :: rest) with
        | some rest4 =>
          have hlt := ansiMatch_length_lt hm
          simp only []
          exact ih f2 rest4 (by simp at hlt hf ⊢; omega) (by simp at hlt hf' ⊢; omega)
        | none =>
          simp only []
          rw [ih f2 rest (by simp at hf ⊢; omega) (by simp at hf' ⊢; omega)]

theorem stripAnsiAux_cons_of_some {c : Char} {rest r : List Char}
    (h : ansiMatch (c :: rest) = some r) :
    stripAnsiAux (c :: rest) = stripAnsiAux r := by
  have hlt := ansiMatch_length_lt h
  show stripAnsiGo ((c :: rest).length) (c :: rest) = stripAnsiGo r.length r
  have h1 : (c :: rest).length = rest.length + 1 := rfl
  rw [h1]
  show (match ansiMatch (c :: rest) with
      | some rest4 => stripAnsiGo rest.length rest4
      | none => c :: stripAnsiGo rest.length rest) = stripAnsiGo r.length r
  rw [h]
  exact stripAnsiGo_congr rest.length r.length r (by simp at hlt ⊢; omega) le_rfl

theorem stripAnsiAux_cons_of_none {c : Char} {rest : List Char}
    (h : ansiMatch (c :: rest) = none) :
    stripAnsiAux (c :: rest) = c :: stripAnsiAux rest := by
  show stripAnsiGo ((c :: rest).length) (c :: rest) = c :: stripAnsiGo rest.length rest
  have h1 : (c :: rest).length = rest.length + 1 := rfl
  rw [h1]
  show (match ansiMatch (c :: rest) with
      | some rest4 => stripAnsiGo rest.length rest4
      | none => c :: stripAnsiGo rest.length rest) = c :: stripAnsiGo rest.length rest
  rw [h]

theorem stripAnsiAux_append_of_no_esc {xs : List Char} (ys : List Char)
    (h : escChar ∉ xs) :
    stripAnsiAux (xs ++ ys) = xs ++ stripAnsiAux ys := by
  induction xs with
  | nil => simp [stripAnsiAux]
  | cons c rest ih =>
    have hc : ¬ c = escChar := fun hh => h (hh ▸ List.mem_cons_self c rest)
    have hr : escChar ∉ rest := fun hh => h (List.mem_cons_of_mem c hh)
    rw [List.cons_append, stripAnsiAux_cons_of_none (ansiMatch_cons_ne hc), ih hr,
      List.cons_append]

theorem stripAnsiAux_of_no_esc {xs : List Char} (h : escChar ∉ xs) :
    stripAnsiAux xs = xs := by
  have hx := @stripAnsiAux_append_of_no_esc xs [] h
  simpa [stripAnsiAux, stripAnsiGo_nil] using hx

theorem ansiFree_stripsCleanly {s : String} (h : AnsiFree s) : StripsCleanly s := by
  intro l
  rw [stripAnsiAux_append_of_no_esc l h]
  show s.data ++ stripAnsiAux l = (stripAnsiAux s.data) ++ stripAnsiAux l
  rw [stripAnsiAux_of_no_esc h]

theorem ansiFree_strip_self {s : String} (h : AnsiFree s) : stripAnsiCodes s = s := by
  show String.mk (stripAnsiAux s.data) = s
  rw [stripAnsiAux_of_no_esc h]

theorem strip_empty : stripAnsiCodes "" = "" := rfl

theorem strip_if_ne (s : String) :
    (if s ≠ "" then stripAnsiCodes s else "") = stripAnsiCodes s := by
  by_cases h : s = "" <;> simp [h, strip_empty]

theorem stripsCleanly_of_code1 {s : String} {d1 : Char}
    (hd : s.data = [escChar, '[', d1, 'm']) (h1 : isAnsiDigit d1 = true) :
    StripsCleanly s ∧ stripAnsiCodes s = "" := by
  have hnil : (stripAnsiCodes s).data = [] := by
    show stripAnsiAux s.data = []
    rw [hd]
    rw [show ([escChar, '[', d1, 'm'] : List Char) =
      escChar :: '[' :: d1 :: 'm' :: [] from rfl]
    rw [stripAnsiAux_cons_of_some (ansiMatch_code1 h1 [])]
    simp [stripAnsiAux, stripAnsiGo_nil]
  refine ⟨?_, String.ext hnil⟩
  intro l
  rw [hd]
  show stripAnsiAux (escChar :: '[' :: d1 :: 'm' :: l) =
    (stripAnsiCodes s).data ++ stripAnsiAux l
  rw [stripAnsiAux_cons_of_some (ansiMatch_code1 h1 l), hnil, List.nil_append]

theorem stripsCleanly_of_code2 {s : String} {d1 d2 : Char}
    (hd : s.data = [escChar, '[', d1, d2, 'm']) (h1 : isAnsiDigit d1 = true)
    (h2 : isAnsiDigit d2 = true) :
    StripsCleanly s ∧ stripAnsiCodes s = "" := by
  have hnil : (stripAnsiCodes s).data = [] := by
    show stripAnsiAux s.data = []
    rw [hd]
    rw [show ([escChar, '[', d1, d2, 'm'] : List Char) =
      escChar :: '[' :: d1 :: d2 :: 'm' :: [] from rfl]
    rw [stripAnsiAux_cons_of_some (ansiMatch_code2 h1 h2 [])]
    simp [stripAnsiAux, stripAnsiGo_nil]
  refine ⟨?_, String.ext hnil⟩
  intro l
  rw [hd]
  show stripAnsiAux (escChar :: '[' :: d1 :: d2 :: 'm' :: l) =
    (stripAnsiCodes s).data ++ stripAnsiAux l
  rw [stripAnsiAux_cons_of_some (ansiMatch_code2 h1 h2 l), hnil, List.nil_append]

theorem reset_code : StripsCleanly COLORS.RESET ∧ stripAnsiCodes COLORS.RESET = "" :=
  @stripsCleanly_of_code1 _ '0' (by decide) (by decide)

theorem green_code : StripsCleanly COLORS.GREEN ∧ stripAnsiCodes COLORS.GREEN = "" :=
  @stripsCleanly_of_code2 _ '3' '2' (by decide) (by decide) (by decide)

/-- C9 counterexample: for a `log`-level record "hello" carrying the
memory-usage segment "[MEM 4MB] " (timestamp, caller info and stack trace
absent), the persisted file variant is "[LOG] hello\n" while stripping ANSI
codes from the console variant gives "[MEM 4MB] hello\n" — so the file
variant is not obtained from the console variant by stripping colour codes
(third conjunct), and neither exception alone reconciles them: inserting
the `[LOG]` tag in front of the stripped console variant still leaves the
memory segment that the file variant omits (fourth conjunct), and dropping
the memory segment from the stripped console variant still lacks the tag
(fifth conjunct). -/
theorem c9_divergence_counterexample :
    stripAnsiCodes (consoleMessage c9Rec) = "[MEM 4MB] hello\n" ∧
    fileMessage c9Rec = "[LOG] hello\n" ∧
    stripAnsiCodes (consoleMessage c9Rec) ≠ fileMessage c9Rec ∧
    logLevelString c9Rec ++ " " ++ stripAnsiCodes (consoleMessage c9Rec) ≠
      fileMessage c9Rec ∧
    (stripAnsiCodes (consoleMessage c9Rec)).drop c9Rec.memoryUsage.length ≠
      fileMessage c9Rec := by
  refine ⟨by decide, by decide, by decide, by decide, by decide⟩

/-- C9 (amended): the file variant never diverges from the ANSI-stripped
console variant except as follows — the file variant inserts the
`[LEVEL]` tag (plus a space) right after the stripped timestamp, and it
omits the memory-usage segment that the console variant may carry.
Formally, when each component strips cleanly, the two renderings share a
common remainder `rest`: stripping the console variant yields
`strippedTimestamp ++ strippedMemoryUsage ++ rest` while the file variant
is `strippedTimestamp ++ "[LEVEL]" ++ " " ++ rest` — identical in content
up to exactly the inserted tag and the dropped memory segment. -/
theorem c9_strip_relation_amended (r : RecordParts)
    (hmem : StripsCleanly r.memoryUsage)
    (hts : StripsCleanly r.timestamp)
    (hinline : StripsCleanly r.inlineCallerInfo)
    (hcolor : StripsCleanly r.color) (hcolor0 : stripAnsiCodes r.color = "")
    (hmsg : AnsiFree r.formattedMessage) (hspace : AnsiFree r.space)
    (hcaller : AnsiFree r.callerInfo) (hstack : AnsiFree r.stackTrace) :
    ∃ rest : String,
      stripAnsiCodes (consoleMessage r) =
        stripAnsiCodes r.timestamp ++ stripAnsiCodes r.memoryUsage ++ rest ∧
      fileMessage r =
        stripAnsiCodes r.timestamp ++ logLevelString r ++ " " ++ rest := by
  refine ⟨stripAnsiCodes r.inlineCallerInfo ++ r.formattedMessage ++ r.space ++
    r.callerInfo ++ "\n" ++
    (if r.stackTrace ≠ "" then r.stackTrace ++ "\n" else ""), ?_, ?_⟩
  · apply String.ext
    show stripAnsiAux (consoleMessage r).data = _
    simp only [consoleMessage, String.data_append, List.append_assoc,
      List.nil_append]
    rw [hts, hmem, hinline, hcolor, hcolor0]
    rw [show ("" : String).data = [] from rfl, List.nil_append]
    rw [stripAnsiAux_append_of_no_esc _ hmsg]
    rw [reset_code.1, reset_code.2]
    rw [show ("" : String).data = [] from rfl, List.nil_append]
    rw [stripAnsiAux_append_of_no_esc _ hspace]
    rw [stripAnsiAux_append_of_no_esc _ hcaller]
    rw [@stripAnsiAux_append_of_no_esc ['\n']
      ((if r.stackTrace ≠ "" then r.stackTrace ++ "\n" else "").data)
      (by decide)]
    have hx : stripAnsiAux ((if r.stackTrace ≠ "" then r.stackTrace ++ "\n" else "").data) =
        (if r.stackTrace ≠ "" then r.stackTrace ++ "\n" else "").data := by
      by_cases hstk : r.stackTrace = ""
      · simp [hstk, stripAnsiAux, stripAnsiGo_nil]
      · rw [if_pos hstk]
        apply stripAnsiAux_of_no_esc
        intro hmem2
        rw [String.data_append] at hmem2
        rcases List.mem_append.mp hmem2 with h | h
        · exact hstack h
        · exact absurd (by simpa using h) (by decide : ¬ escChar = '\n')
    rw [hx]
  · simp only [fileMessage, strip_if_ne, ansiFree_strip_self hmsg,
      ansiFree_strip_self hcaller, ansiFree_strip_self hstack]
    apply String.ext
    simp [String.data_append, List.append_assoc]
    by_cases hcal : r.callerInfo = "" <;> simp [hcal]

/-- Witness for `c9_strip_relation_amended` at the concrete record
`c9WitnessRec` (which carries a non-empty memory-usage segment), with
every hypothesis discharged by computation. -/
theorem c9_strip_relation_amended_witness :
    ∃ rest : String,
      stripAnsiCodes (consoleMessage c9WitnessRec) =
        stripAnsiCodes c9WitnessRec.timestamp ++
          stripAnsiCodes c9WitnessRec.memoryUsage ++ rest ∧
      fileMessage c9WitnessRec =
        stripAnsiCodes c9WitnessRec.timestamp ++ logLevelString c9WitnessRec ++
          " " ++ rest :=
  c9_strip_relation_amended c9WitnessRec
    (ansiFree_stripsCleanly (by decide)) (ansiFree_stripsCleanly (by decide))
    (ansiFree_stripsCleanly (by decide))
    green_code.1 green_code.2 (by decide) (by decide) (by decide) (by decide)

theorem opMessages_cons (op : HandlerOp) (ops : List HandlerOp) :
    opMessages (op :: ops) = opMessages [op] ++ opMessages ops := by
  cases op <;> simp [opMessages]

theorem flushQueue_spec (s : HandlerState) (h1 : s.isFlushing = false)
    (h3 : s.isClosed = false) :
    flushQueue false s =
      if s.logQueue.isEmpty then s
      else { s with logQueue := [], isFlushing := false,
                    writes := s.writes ++ [s.logQueue] } := by
  by_cases hq : s.logQueue.isEmpty
  · have hg : (s.isFlushing || s.isClosed || s.logQueue.isEmpty) = true := by
      rw [h1, h3, hq]
      rfl
    unfold flushQueue
    rw [hg, if_pos hq]
    simp
  · have hg : (s.isFlushing || s.isClosed || s.logQueue.isEmpty) = false := by
      rw [h1, h3]
      simpa using hq
    unfold flushQueue
    rw [hg, if_neg hq]
    simp only [Bool.false_eq_true, if_false]

theorem flushQueue_fail_spec (s : HandlerState) (h1 : s.isFlushing = false)
    (h3 : s.isClosed = false) :
    flushQueue true s =
      if s.logQueue.isEmpty then s
      else { s with logQueue := [], isFlushing := false,
                    errors := s.errors + 1 } := by
  by_cases hq : s.logQueue.isEmpty
  · have hg : (s.isFlushing || s.isClosed || s.logQueue.isEmpty) = true := by
      rw [h1, h3, hq]
      rfl
    unfold flushQueue
    rw [hg, if_pos hq]
    simp
  · have hg : (s.isFlushing || s.isClosed || s.logQueue.isEmpty) = false := by
      rw [h1, h3]
      simpa using hq
    unfold flushQueue
    rw [hg, if_neg hq]
    simp only [Bool.false_eq_true, if_false, if_true]

theorem handlerInv_flushQueue {msgs : List String} {s : HandlerState}
    (h : HandlerInv msgs s) : HandlerInv msgs (flushQueue false s) := by
  obtain ⟨h1, h2, h3, h4, h5⟩ := h
  rw [flushQueue_spec s h1 h3]
  by_cases hq : s.logQueue.isEmpty
  · rw [if_pos hq]
    exact ⟨h1, h2, h3, h4, h5⟩
  · rw [if_neg hq]
    refine ⟨rfl, h2, h3, h4, ?_⟩
    simp [List.flatten_append, h5]

theorem handlerInv_applyOp {msgs : List String} {s : HandlerState}
    (bs : Nat) (op : HandlerOp) (h : HandlerInv msgs s) :
    HandlerInv (msgs ++ opMessages [op]) (applyOp bs s op) := by
  obtain ⟨h1, h2, h3, h4, h5⟩ := h
  cases op with
  | tick =>
    show HandlerInv (msgs ++ []) (flushTick false s)
    rw [List.append_nil]
    unfold flushTick
    split
    · exact handlerInv_flushQueue ⟨h1, h2, h3, h4, h5⟩
    · exact ⟨h1, h2, h3, h4, h5⟩
  | enq m =>
    show HandlerInv (msgs ++ [m]) (enqueueLog bs false m s)
    unfold enqueueLog
    have hg : (s.isShuttingDown || s.isClosed) = false := by
      rw [h2, h3]
      rfl
    rw [hg]
    simp only [Bool.false_eq_true, if_false]
    have hinv1 : HandlerInv (msgs ++ [m]) { s with logQueue := s.logQueue ++ [m] } :=
      ⟨h1, h2, h3, h4, by simp [← h5]⟩
    split
    · exact handlerInv_flushQueue hinv1
    · exact hinv1

theorem handlerInv_foldl (bs : Nat) (ops : List HandlerOp) :
    ∀ (msgs : List String) (s : HandlerState), HandlerInv msgs s →
      HandlerInv (msgs ++ opMessages ops) (List.foldl (applyOp bs) s ops) := by
  induction ops with
  | nil => intro msgs s h; simpa [opMessages] using h
  | cons op ops ih =>
    intro msgs s h
    have hstep := handlerInv_applyOp bs op h
    have hrest := ih (msgs ++ opMessages [op]) (applyOp bs s op) hstep
    rw [opMessages_cons, ← List.append_assoc]
    exact hrest

theorem handlerInv_run (bs : Nat) (ops : List HandlerOp) :
    HandlerInv (opMessages ops) (runHandler bs ops) := by
  have h0 : HandlerInv [] initialHandler := ⟨rfl, rfl, rfl, rfl, rfl⟩
  simpa using handlerInv_foldl bs ops [] initialHandler h0

theorem aStep_frozen (bs : Nat) (e : AEvent) (s : AsyncHandler)
    (h1 : s.isShuttingDown = true) (h2 : s.isClosed = true)
    (h3 : s.inFlight = none) (h4 : s.loopExited = true)
    (h5 : s.closeAwait = false) :
    aStep bs s e = s := by
  cases e with
  | enqueue m => simp [aStep, aEnqueue, h1]
  | writeDone => simp [aStep, aWriteDone, h3]
  | loopWake =>
    cases s
    simp_all [aStep, aLoopWake]
  | closeBegin => simp [aStep, aCloseBegin, h1]
  | closeResume => simp [aStep, aCloseResume, h2]

theorem aRun_frozen (bs : Nat) (es : List AEvent) (s : AsyncHandler)
    (h1 : s.isShuttingDown = true) (h2 : s.isClosed = true)
    (h3 : s.inFlight = none) (h4 : s.loopExited = true)
    (h5 : s.closeAwait = false) :
    aRun bs es s = s := by
  induction es with
  | nil => rfl
  | cons e es ih =>
    have hstep : aRun bs (e :: es) s = aRun bs es (aStep bs s e) := rfl
    rw [hstep, aStep_frozen bs e s h1 h2 h3 h4 h5, ih]

/-- C4: the zero-data-loss guarantee fails.  Under the legal schedule
`c4LossSchedule` — "a" is enqueued and its fire-and-forget flush's stream
write is still pending when "b" is enqueued and `close()` runs — `close()`'s
final `flushQueue()` no-ops on `isFlushing` and `isClosed` is set with "b"
still queued.  In the final state the store holds only "a\n", "b" (enqueued
before `close()` was invoked) sits in `logQueue`, and no further scheduler
event can ever change the state again: "b" is lost. -/
theorem c4_close_data_loss :
    c4LossState.isClosed = true ∧
    c4LossState.isShuttingDown = true ∧
    c4LossState.writes = ["a\n"] ∧
    c4LossState.logQueue = ["b"] ∧
    ∀ es : List AEvent, aRun 1 es c4LossState = c4LossState := by
  refine ⟨by decide, by decide, by decide, by decide, fun es => ?_⟩
  exact aRun_frozen 1 es c4LossState (by decide) (by decide) (by decide)
    (by decide) (by decide)

theorem run_enqueue_below (bs : Nat) :
    ∀ (msgs : List String) (q : List String) (w : List (List String)) (e : Nat),
      q.length + msgs.length < bs →
      List.foldl (applyOp bs)
        { logQueue := q, isFlushing := false, isShuttingDown := false,
          isClosed := false, writes := w, errors := e }
        (msgs.map HandlerOp.enq) =
        { logQueue := q ++ msgs, isFlushing := false, isShuttingDown := false,
          isClosed := false, writes := w, errors := e } := by
  intro msgs
  induction msgs with
  | nil => intro q w e _; simp
  | cons m ms ih =>
    intro q w e hlen
    rw [List.map_cons, List.foldl_cons]
    have hstep : applyOp bs
        { logQueue := q, isFlushing := false, isShuttingDown := false,
          isClosed := false, writes := w, errors := e } (HandlerOp.enq m) =
        { logQueue := q ++ [m], isFlushing := false, isShuttingDown := false,
          isClosed := false, writes := w, errors := e } := by
      show enqueueLog bs false m _ = _
      unfold enqueueLog
      simp only [Bool.false_or, Bool.false_eq_true, if_false]
      rw [if_neg]
      simp at hlen ⊢
      omega
    rw [hstep]
    have hrec := ih (q ++ [m]) w e (by simp at hlen ⊢; omega)
    rw [hrec]
    simp

/-- C3 (amended): `flushQueue()` is a no-op when a flush is in progress, the
handler is closed, or the queue is empty; otherwise it captures and empties
the queue, performs one store write whose payload is the captured records
CONCATENATED (joined with the empty string) followed by a single newline —
not newline-joined — and clears `isFlushing` even when the write fails,
which is reported via the error handler and not re-thrown; enqueueing
exactly `queueBatchSize` records with no elapsed time produces exactly one
flush whose single write contains all the records, with the queue empty
immediately after. -/
theorem c3_flush_queue_amended (s : HandlerState) (writeFails : Bool)
    (queueBatchSize : Nat) (msgs : List String) :
    (s.isFlushing = true → flushQueue writeFails s = s) ∧
    (s.isClosed = true → flushQueue writeFails s = s) ∧
    (s.logQueue = [] → flushQueue writeFails s = s) ∧
    (s.isFlushing = false → s.isClosed = false → s.logQueue ≠ [] →
      (flushQueue false s).writes = s.writes ++ [s.logQueue] ∧
      (flushQueue false s).logQueue = [] ∧
      (flushQueue false s).isFlushing = false ∧
      (flushQueue true s).writes = s.writes ∧
      (flushQueue true s).errors = s.errors + 1 ∧
      (flushQueue true s).isFlushing = false) ∧
    (0 < queueBatchSize → msgs.length = queueBatchSize →
      runHandler queueBatchSize (msgs.map HandlerOp.enq) =
        { logQueue := [], isFlushing := false, isShuttingDown := false,
          isClosed := false, writes := [msgs], errors := 0 }) := by
  refine ⟨?_, ?_, ?_, ?_, ?_⟩
  · intro h
    unfold flushQueue
    rw [h]
    rfl
  · intro h
    unfold flushQueue
    rw [h]
    simp
  · intro h
    unfold flushQueue
    rw [h]
    simp
  · intro h1 h3 hq
    have hq2 : s.logQueue.isEmpty = false := by
      simpa [List.isEmpty_iff] using hq
    rw [flushQueue_spec s h1 h3, flushQueue_fail_spec s h1 h3, if_neg (by simp [hq2]),
      if_neg (by simp [hq2])]
    exact ⟨rfl, rfl, rfl, rfl, rfl, rfl⟩
  · intro hbs hlen
    have hne : msgs ≠ [] := by
      intro hcon
      rw [hcon] at hlen
      simp at hlen
      omega
    obtain ⟨front, last, hsplit⟩ : ∃ front last, msgs = front ++ [last] :=
      ⟨msgs.dropLast, msgs.getLast hne, by rw [List.dropLast_append_getLast hne]⟩
    subst hsplit
    unfold runHandler
    rw [List.map_append, List.foldl_append]
    have hfront : List.foldl (applyOp queueBatchSize) initialHandler
        (front.map HandlerOp.enq) =
        { logQueue := [] ++ front, isFlushing := false, isShuttingDown := false,
          isClosed := false, writes := [], errors := 0 } := by
      apply run_enqueue_below
      simp at hlen ⊢
      omega
    rw [hfront]
    rw [show List.map HandlerOp.enq [last] = [HandlerOp.enq last] from rfl,
      List.foldl_cons, List.foldl_nil]
    show enqueueLog queueBatchSize false last _ = _
    unfold enqueueLog
    simp only [Bool.false_or, Bool.false_eq_true, if_false, List.nil_append]
    rw [if_pos (by simp at hlen ⊢; omega)]
    have hflush := flushQueue_spec
      { logQueue := front ++ [last], isFlushing := false, isShuttingDown := false,
        isClosed := false, writes := [], errors := 0 } rfl rfl
    rw [hflush, if_neg (by simp)]
    simp

/-- C3 counterexample: with the queue holding the two records "a" and "b",
the single flush write carries the payload "ab\n" (records joined with the
empty string plus one trailing newline), which differs from the
newline-joined payloads "a\nb" and "a\nb\n" the claim describes. -/
theorem c3_payload_counterexample :
    (flushQueue false
      { logQueue := ["a", "b"], isFlushing := false, isShuttingDown := false,
        isClosed := false, writes := [], errors := 0 }).writes = [["a", "b"]] ∧
    flushPayload ["a", "b"] = "ab\n" ∧
    flushPayload ["a", "b"] ≠ "a\nb" ∧
    flushPayload ["a", "b"] ≠ "a\nb\n" := by
  refine ⟨by decide, by decide, by decide, by decide⟩

/-- Witness for `c3_flush_queue_amended`: enqueueing exactly two records
with batch size two produces exactly one flush containing both records,
leaving the queue empty. -/
theorem c3_flush_queue_amended_witness :
    runHandler 2 (["a", "b"].map HandlerOp.enq) =
      { logQueue := [], isFlushing := false, isShuttingDown := false,
        isClosed := false, writes := [["a", "b"]], errors := 0 } :=
  (c3_flush_queue_amended initialHandler false 2 ["a", "b"]).2.2.2.2
    (by decide) (by decide)

/-- C5 evaluation at the failing input: with "app.log" at the 1 MiB
threshold, one `writeToFile` performs exactly one rotation with the
specified rotated name (ISO timestamp with ':' and '.' replaced by '-'),
resets `currentFileSize` to 0 before counting the new message — but no
fresh file exists at the original path afterwards: the name "app.log" maps
to nothing, and the appended bytes went into the renamed (rotated) file
through the still-open stream. -/
theorem c5_rotation_no_fresh_file :
    (writeToFile "2024-01-01T00:00:00.000Z" "hello" c5St).rotatedFiles =
      ["app-2024-01-01T00-00-00-000Z.log"] ∧
    (writeToFile "2024-01-01T00:00:00.000Z" "hello" c5St).currentFileSize = 5 ∧
    (writeToFile "2024-01-01T00:00:00.000Z" "hello" c5St).fs.lookup "app.log" =
      none ∧
    (writeToFile "2024-01-01T00:00:00.000Z" "hello" c5St).fs.lookup
      "app-2024-01-01T00-00-00-000Z.log" = some 0 ∧
    (writeToFile "2024-01-01T00:00:00.000Z" "hello" c5St).fs.inodes =
      ["OLDhello"] ∧
    (writeToFile "2024-01-01T00:00:00.000Z" "hello" c5St).errors = 0 := by
  refine ⟨by decide, by decide, by decide, by decide, by decide, by decide⟩

theorem enforceRetention_spec (maxF : Nat) (fails : String → Bool) :
    ∀ l : List String,
      (enforceRetention maxF fails l).remaining = l.drop (l.length - maxF) ∧
      (enforceRetention maxF fails l).deleted = l.take (l.length - maxF) ∧
      (enforceRetention maxF fails l).errors =
        ((l.take (l.length - maxF)).filter fails).length := by
  intro l
  induction l with
  | nil => simp [enforceRetention]
  | cons f rest ih =>
    obtain ⟨ih1, ih2, ih3⟩ := ih
    unfold enforceRetention
    by_cases hlen : maxF < (f :: rest).length
    · rw [if_pos hlen]
      have harith : (f :: rest).length - maxF = (rest.length - maxF) + 1 := by
        simp at hlen ⊢
        omega
      rw [harith]
      dsimp only
      refine ⟨?_, ?_, ?_⟩
      · rw [List.drop_succ_cons, ih1]
      · rw [List.take_succ_cons, ih2]
      · rw [List.take_succ_cons, List.filter_cons]
        by_cases hf : fails f <;> simp [hf, ih3, ih2, Nat.add_comm]
    · rw [if_neg hlen]
      have harith : (f :: rest).length - maxF = 0 := by
        simp at hlen ⊢
        omega
      rw [harith]
      simp

theorem enforceRetentionFS_remaining (maxF : Nat) :
    ∀ (l : List String) (fs : MiniFS) (e : Nat),
      (enforceRetentionFS maxF l fs e).1 = l.drop (l.length - maxF) := by
  intro l
  induction l with
  | nil => intro fs e; simp [enforceRetentionFS]
  | cons f rest ih =>
    intro fs e
    unfold enforceRetentionFS
    by_cases hlen : maxF < (f :: rest).length
    · rw [if_pos hlen]
      have harith : (f :: rest).length - maxF = (rest.length - maxF) + 1 := by
        simp at hlen ⊢
        omega
      rw [harith, List.drop_succ_cons]
      cases hfind : fs.lookup f <;> simp [ih]
    · rw [if_neg hlen]
      have harith : (f :: rest).length - maxF = 0 := by
        simp at hlen ⊢
        omega
      rw [harith]
      simp

theorem rotateFiles_rotated {ts : String} {st st1 : FileLoggerState}
    (h : rotateFiles ts st = some st1) :
    st1.rotatedFiles =
      (st.rotatedFiles ++ [rotatedName st.outputFilename ts]).drop
        ((st.rotatedFiles ++ [rotatedName st.outputFilename ts]).length -
          st.maxLogFiles) ∧
    st1.currentFileSize = 0 := by
  unfold rotateFiles at h
  split at h
  · cases h
  · split at h
    · cases h
    · injection h with h
      subst h
      exact ⟨enforceRetentionFS_remaining st.maxLogFiles _ _ _, rfl⟩

/-- C6: retention removes entries only from the front (the oldest end) of
the cache — the remaining cache is a suffix and the deletions are exactly
the oldest excess entries in order — the remaining count never exceeds
`maxLogFiles`, delete failures are reported (counted) without aborting the
deletion of the other excess files, and after any successful rotation the
cache length is at most `maxLogFiles`. -/
theorem c6_retention_bound (maxF : Nat) (fails : String → Bool) (l : List String) :
    (enforceRetention maxF fails l).remaining = l.drop (l.length - maxF) ∧
    (enforceRetention maxF fails l).deleted = l.take (l.length - maxF) ∧
    (enforceRetention maxF fails l).remaining.length ≤ maxF ∧
    (enforceRetention maxF fails l).errors =
      ((enforceRetention maxF fails l).deleted.filter fails).length ∧
    (∀ (ts : String) (st st1 : FileLoggerState), rotateFiles ts st = some st1 →
      st1.rotatedFiles.length ≤ st.maxLogFiles) := by
  obtain ⟨h1, h2, h3⟩ := enforceRetention_spec maxF fails l
  refine ⟨h1, h2, ?_, ?_, ?_⟩
  · rw [h1, List.length_drop]
    omega
  · rw [h2, h3]
  · intro ts st st1 hrot
    obtain ⟨hr1, _⟩ := rotateFiles_rotated hrot
    rw [hr1, List.length_drop]
    omega

/-- Witness for `c6_retention_bound` at a concrete rotation: rotating the
C5 logger keeps at most `maxLogFiles = 5` rotated files. -/
theorem c6_retention_bound_witness :
    ∀ st1 : FileLoggerState,
      rotateFiles "2024-01-01T00:00:00.000Z" c5St = some st1 →
      st1.rotatedFiles.length ≤ 5 := by
  intro st1 h
  exact (c6_retention_bound 5 (fun _ => false) []).2.2.2.2
    "2024-01-01T00:00:00.000Z" c5St st1 h

/-- C7 evaluation at the failing input: calling `close()` on an open logger
with a file handler and a worker reports one error (the ReferenceError from
the bare `includeMemoryUsage` on line 320) and performs NO shutdown step —
the queue is not flushed, the handler, store and worker are not closed, and
`isClosed` stays false; the `isClosing` guard itself works: a call while
`isClosing` is set is a no-op. -/
theorem c7_close_reference_error :
    aclClose c7St = { c7St with errorsReported := 1 } ∧
    (aclClose c7St).flushCalled = false ∧
    (aclClose c7St).handlerClosed = false ∧
    (aclClose c7St).workerClosed = false ∧
    (aclClose c7St).isClosed = false ∧
    aclClose { c7St with isClosing := true } = { c7St with isClosing := true } := by
  refine ⟨by decide, by decide, by decide, by decide, by decide, by decide⟩

/-- C8 counterexample: for the main→worker sequence of one log payload
followed immediately by "close", a legal interleaving — "close" dispatched
while the payload's append is still in flight — makes the worker post
"closed" TWICE: once from `sendClosedSignalIfNeeded()` when the append
completes, and once more when the suspended close handler's drain loop
resumes and calls `sendClosedSignal()` unconditionally.  The claim's
"exactly once" is violated. -/
theorem c8_double_closed_counterexample :
    (wrun [WEvent.recv, WEvent.recv, WEvent.complete, WEvent.resume]
        WState.init [MMsg.payload "r1", MMsg.close]).map (fun r => r.2.2) =
      some [WMsg.processed, WMsg.closed, WMsg.closed] ∧
    [WMsg.processed, WMsg.closed, WMsg.closed].count WMsg.closed = 2 ∧
    [WMsg.processed, WMsg.closed, WMsg.closed].count WMsg.processed = 1 := by
  refine ⟨by decide, by decide, by decide⟩

theorem wstep_inv {e : WEvent} {s : WState} {inq : List MMsg}
    {r : WState × List MMsg × List WMsg} {cc pc : Nat}
    (h : wstep e s inq = some r) (hinv : WInvP s inq cc pc) :
    WInvP r.1 r.2.1 (cc + r.2.2.count WMsg.closed)
      (pc + r.2.2.count WMsg.processed) := by
  obtain ⟨hp, hw, hok, hpc, hwait, hsig, hcons, hgood, hdr, hdrg, hcc⟩ := hinv
  cases e with
  | recv =>
    cases inq with
    | nil => simp [wstep] at h
    | cons m q =>
      have hsf : s.closeSignalReceived = false := by
        by_contra hx
        have hx2 : s.closeSignalReceived = true := by
          revert hx
          cases s.closeSignalReceived <;> simp
        have := hcons hx2
        simp at this
      have hdrnone : s.closeSeenDrained = none := by
        rcases hopt : s.closeSeenDrained with _ | b
        · rfl
        · have hx : s.closeSignalReceived = true := hsig.mpr (by rw [hopt]; rfl)
          rw [hx] at hsf
          cases hsf
      have hwf : s.closeWaiting = false := by
        by_contra hx
        have hx2 : s.closeWaiting = true := by
          revert hx
          cases s.closeWaiting <;> simp
        rw [(hwait hx2).1] at hsf
        cases hsf
      have hccz : cc = 0 := by
        rw [hcc]
        simp [closedFn, hsf]
      cases m with
      | payload content =>
        simp only [wstep] at h
        cases h
        refine ⟨?_, ?_, ?_, ?_, ?_, ?_, ?_, ?_, ?_, ?_, ?_⟩
        · dsimp
          omega
        · dsimp
          omega
        · exact hok
        · simpa using hpc
        · intro hx
          exact hwait hx
        · exact hsig
        · intro hx
          dsimp at hx
          rw [hx] at hsf
          cases hsf
        · simpa [GoodInput] using hgood
        · intro hx
          dsimp at hx
          rw [hdrnone] at hx
          cases hx
        · intro hx
          dsimp at hx
          rw [hdrnone] at hx
          cases hx
        · simp [closedFn, hsf, hccz]
      | close =>
        have hq : q = [] := by simpa [GoodInput] using hgood
        subst hq
        simp only [wstep] at h
        by_cases hpend : s.pending = 0
        · rw [if_pos hpend] at h
          cases h
          have hrw : s.received = s.written := by omega
          refine ⟨?_, ?_, ?_, ?_, ?_, ?_, ?_, ?_, ?_, ?_, ?_⟩
          · exact hp
          · exact hw
          · dsimp
            rw [hok, hrw]
            simp
          · simpa using hpc
          · intro hx
            dsimp at hx
            rw [hwf] at hx
            cases hx
          · simp
          · intro _
            rfl
          · trivial
          · intro _
            exact hpend
          · intro hx
            dsimp at hx
            cases hx
          · simp [closedFn, hccz]
        · rw [if_neg hpend] at h
          cases h
          have hpos : 0 < s.pending := by omega
          refine ⟨?_, ?_, ?_, ?_, ?_, ?_, ?_, ?_, ?_, ?_, ?_⟩
          · exact hp
          · exact hw
          · exact hok
          · simpa using hpc
          · intro _
            exact ⟨rfl, rfl⟩
          · simp
          · intro _
            rfl
          · trivial
          · intro hx
            dsimp at hx
            cases hx
          · intro _ _
            rfl
          · simp [closedFn, hpos, hccz]
  | complete =>
    simp only [wstep] at h
    by_cases hpend : s.pending = 0
    · rw [if_pos hpend] at h
      cases h
    · rw [if_neg hpend] at h
      have hpos : 0 < s.pending := by omega
      by_cases hfire : (s.closeSignalReceived && (s.pending - 1 == 0)) = true
      · rw [if_pos hfire] at h
        cases h
        have hsig1 : s.closeSignalReceived = true := by
          revert hfire
          cases s.closeSignalReceived <;> simp
        have hp0 : s.pending - 1 = 0 := by
          have hx := hfire
          rw [hsig1] at hx
          simpa using hx
        have hdrsome : s.closeSeenDrained = some false := by
          rcases hopt : s.closeSeenDrained with _ | b
          · exact absurd (hsig.mp hsig1) (by rw [hopt]; simp)
          · cases b
            · rfl
            · exact absurd (hdr hopt) hpend
        have hwait1 : s.closeWaiting = true := hdrg hdrsome hpos
        have hccv : cc = 0 := by
          rw [hcc]
          simp [closedFn, hsig1, hdrsome, hpos]
        refine ⟨?_, ?_, ?_, ?_, ?_, ?_, ?_, ?_, ?_, ?_, ?_⟩
        · dsimp
          omega
        · dsimp
          omega
        · dsimp
          have hx : s.received = s.written + 1 := by omega
          rw [hok, hx]
          simp
        · dsimp
          rw [hpc]
          simp
        · intro _
          exact ⟨hsig1, hdrsome⟩
        · dsimp
          rw [hsig1, hdrsome]
          simp
        · intro _
          exact hcons hsig1
        · exact hgood
        · intro hx
          dsimp at hx
          rw [hdrsome] at hx
          cases hx
        · intro _ hy
          dsimp at hy
          omega
        · simp [closedFn, hsig1, hdrsome, hp0, hwait1, hccv]
      · rw [if_neg hfire] at h
        cases h
        refine ⟨?_, ?_, ?_, ?_, ?_, ?_, ?_, ?_, ?_, ?_, ?_⟩
        · dsimp
          omega
        · dsimp
          omega
        · exact hok
        · dsimp
          rw [hpc]
          simp
        · intro hx
          dsimp at hx
          exact hwait hx
        · exact hsig
        · intro hx
          dsimp at hx
          exact hcons hx
        · exact hgood
        · intro hx
          dsimp at hx
          exact absurd (hdr hx) hpend
        · intro hx hy
          dsimp at hx hy
          exact hdrg hx hpos
        · by_cases hsg : s.closeSignalReceived = true
          · have hpg : ¬ (s.pending - 1 = 0) := by
              intro hx
              rw [hsg] at hfire
              simp at hfire
              omega
            have hpos2 : 0 < s.pending - 1 := by omega
            rcases hopt : s.closeSeenDrained with _ | b
            · exact absurd (hsig.mp hsg) (by rw [hopt]; simp)
            · cases b
              · have hccv : cc = 0 := by
                  rw [hcc]
                  simp [closedFn, hsg, hopt, hpos]
                simp [closedFn, hsg, hopt, hpos2, hccv]
              · exact absurd (hdr hopt) hpend
          · have hsgf : s.closeSignalReceived = false := by
              revert hsg
              cases s.closeSignalReceived <;> simp
            have hccv : cc = 0 := by
              rw [hcc]
              simp [closedFn, hsgf]
            simp [closedFn, hsgf, hccv]
  | resume =>
    simp only [wstep] at h
    by_cases hcond : (s.closeWaiting && (s.pending == 0)) = true
    · rw [if_pos hcond] at h
      cases h
      have hwt : s.closeWaiting = true := by
        revert hcond
        cases s.closeWaiting <;> simp
      have hpend : s.pending = 0 := by
        have hx := hcond
        rw [hwt] at hx
        simpa using hx
      obtain ⟨hsig1, hdrsome⟩ := hwait hwt
      have hccv : cc = 1 := by
        rw [hcc]
        simp [closedFn, hsig1, hdrsome, hpend, hwt]
      refine ⟨?_, ?_, ?_, ?_, ?_, ?_, ?_, ?_, ?_, ?_, ?_⟩
      · exact hp
      · exact hw
      · dsimp
        have hx : s.received = s.written := by omega
        rw [hok, hx]
        simp
      · simpa using hpc
      · intro hx
        dsimp at hx
        cases hx
      · exact hsig
      · intro _
        exact hcons hsig1
      · exact hgood
      · intro hx
        dsimp at hx
        rw [hdrsome] at hx
        cases hx
      · intro _ hy
        dsimp at hy
        omega
      · simp [closedFn, hsig1, hdrsome, hpend, hccv]
    · rw [if_neg hcond] at h
      cases h

theorem wrun_inv :
    ∀ (evts : List WEvent) (s : WState) (inq : List MMsg)
      (r : WState × List MMsg × List WMsg) (cc pc : Nat),
      wrun evts s inq = some r → WInvP s inq cc pc →
      WInvP r.1 r.2.1 (cc + r.2.2.count WMsg.closed)
        (pc + r.2.2.count WMsg.processed) := by
  intro evts
  induction evts with
  | nil =>
    intro s inq r cc pc h hinv
    simp only [wrun] at h
    cases h
    simpa using hinv
  | cons e es ih =>
    intro s inq r cc pc h hinv
    simp only [wrun] at h
    cases hstep : wstep e s inq with
    | none =>
      rw [hstep] at h
      cases h
    | some r1 =>
      obtain ⟨s1, q1, out1⟩ := r1
      rw [hstep] at h
      dsimp only at h
      cases hrun : wrun es s1 q1 with
      | none =>
        rw [hrun] at h
        cases h
      | some r2 =>
        obtain ⟨s2, q2, out2⟩ := r2
        rw [hrun] at h
        cases h
        have h1 := wstep_inv hstep hinv
        have h2 := ih s1 q1 (s2, q2, out2)
          (cc + out1.count WMsg.closed) (pc + out1.count WMsg.processed) hrun h1
        simpa [List.count_append, Nat.add_assoc] using h2

theorem goodInput_payloads (msgs : List String) :
    GoodInput (msgs.map MMsg.payload ++ [MMsg.close]) := by
  induction msgs with
  | nil => trivial
  | cons m ms ih => simpa [GoodInput] using ih

theorem winv_init (msgs : List String) :
    WInvP WState.init (msgs.map MMsg.payload ++ [MMsg.close]) 0 0 := by
  refine ⟨rfl, Nat.le_refl 0, rfl, rfl, ?_, ?_, ?_, goodInput_payloads msgs, ?_, ?_, ?_⟩
  · intro hx
    cases hx
  · simp [WState.init]
  · intro hx
    cases hx
  · intro hx
    cases hx
  · intro hx
    cases hx
  · simp [closedFn, WState.init]

/-- C8 (amended): for every main→worker sequence of log payloads followed
by the "close" token and every legal interleaving, the worker posts exactly
one "processed" per completed append, posts "closed" only at points where
every payload received so far has been written (`drainOk`), posts "closed"
exactly ONCE when "close" is dispatched after all appends have completed —
the situation the main side's drain-then-close protocol guarantees — but
posts it TWICE when "close" is dispatched while an append is still in
flight and the run drains and resumes. -/
theorem c8_worker_protocol_amended (evts : List WEvent) (msgs : List String)
    (r : WState × List MMsg × List WMsg)
    (h : wrun evts WState.init (msgs.map MMsg.payload ++ [MMsg.close]) = some r) :
    r.2.2.count WMsg.processed = r.1.written ∧
    r.1.drainOk = true ∧
    (r.1.closeSeenDrained = some true → r.2.2.count WMsg.closed = 1) ∧
    (r.1.closeSeenDrained = some false → r.1.pending = 0 →
      r.1.closeWaiting = false → r.2.2.count WMsg.closed = 2) := by
  have hfin := wrun_inv evts WState.init (msgs.map MMsg.payload ++ [MMsg.close])
    r 0 0 h (winv_init msgs)
  obtain ⟨hp, hw, hok, hpc, hwait, hsig, hcons, hgood, hdr, hdrg, hcc⟩ := hfin
  refine ⟨by simpa using hpc, hok, ?_, ?_⟩
  · intro hx
    have hsg : r.1.closeSignalReceived = true := hsig.mpr (by rw [hx]; rfl)
    have hy := hcc
    simp [closedFn, hsg, hx] at hy
    omega
  · intro hx hpend hwaitf
    have hsg : r.1.closeSignalReceived = true := hsig.mpr (by rw [hx]; rfl)
    have hy := hcc
    simp [closedFn, hsg, hx, hpend, hwaitf] at hy
    omega

/-- Witness for `c8_worker_protocol_amended`: one payload, append completed
before "close" is dispatched — the worker posts exactly one "processed" and
exactly one "closed". -/
theorem c8_worker_protocol_amended_witness :
    wrun [WEvent.recv, WEvent.complete, WEvent.recv] WState.init
        (["r1"].map MMsg.payload ++ [MMsg.close]) =
      some ({ pending := 0, closeSignalReceived := true, closeWaiting := false,
              received := 1, written := 1, closeSeenDrained := some true,
              drainOk := true }, [], [WMsg.processed, WMsg.closed]) ∧
    [WMsg.processed, WMsg.closed].count WMsg.closed = 1 := by
  have h : wrun [WEvent.recv, WEvent.complete, WEvent.recv] WState.init
      (["r1"].map MMsg.payload ++ [MMsg.close]) =
      some ({ pending := 0, closeSignalReceived := true, closeWaiting := false,
              received := 1, written := 1, closeSeenDrained := some true,
              drainOk := true }, [], [WMsg.processed, WMsg.closed]) := by decide
  refine ⟨h, ?_⟩
  exact (c8_worker_protocol_amended [WEvent.recv, WEvent.complete, WEvent.recv]
    ["r1"] _ h).2.2.1 (by decide)

theorem payCount_cons_payload (m : String) (q : List MMsg) :
    payCount (MMsg.payload m :: q) = payCount q + 1 := by
  simp [payCount, List.countP_cons]

theorem payCount_cons_close (q : List MMsg) :
    payCount (MMsg.close :: q) = payCount q := by
  simp [payCount, List.countP_cons]

theorem payCount_append (q1 q2 : List MMsg) :
    payCount (q1 ++ q2) = payCount q1 + payCount q2 := by
  simp [payCount, List.countP_append]

theorem closeCount_cons_payload (m : String) (q : List MMsg) :
    closeCount (MMsg.payload m :: q) = closeCount q := by
  simp [closeCount, List.count_cons]

theorem closeCount_cons_close (q : List MMsg) :
    closeCount (MMsg.close :: q) = closeCount q + 1 := by
  simp [closeCount, List.count_cons]

theorem closeCount_append (q1 q2 : List MMsg) :
    closeCount (q1 ++ q2) = closeCount q1 + closeCount q2 := by
  simp [closeCount, List.count_append]

theorem procCount_append (l1 l2 : List WMsg) :
    procCount (l1 ++ l2) = procCount l1 + procCount l2 := by
  simp [procCount, List.count_append]

theorem procCount_cons_closed (l : List WMsg) :
    procCount (WMsg.closed :: l) = procCount l := by
  simp [procCount, List.count_cons]

theorem procCount_cons_processed (l : List WMsg) :
    procCount (WMsg.processed :: l) = procCount l + 1 := by
  simp [procCount, List.count_cons]

theorem closedCount_append (l1 l2 : List WMsg) :
    closedCount (l1 ++ l2) = closedCount l1 + closedCount l2 := by
  simp [closedCount, List.count_append]

theorem closedCount_cons_closed (l : List WMsg) :
    closedCount (WMsg.closed :: l) = closedCount l + 1 := by
  simp [closedCount, List.count_cons]

theorem closedCount_cons_processed (l : List WMsg) :
    closedCount (WMsg.processed :: l) = closedCount l := by
  simp [closedCount, List.count_cons]

theorem procCount_singleton_processed : procCount [WMsg.processed] = 1 := by decide

theorem procCount_singleton_closed : procCount [WMsg.closed] = 0 := by decide

theorem closedCount_singleton_processed : closedCount [WMsg.processed] = 0 := by decide

theorem closedCount_singleton_closed : closedCount [WMsg.closed] = 1 := by decide

theorem payCount_singleton_payload (m : String) :
    payCount [MMsg.payload m] = 1 := by
  simp [payCount, List.countP_cons, List.countP_nil]

theorem payCount_singleton_close : payCount [MMsg.close] = 0 := by decide

theorem channel_empty {q : List MMsg} (h1 : payCount q = 0)
    (h2 : closeCount q = 0) : q = [] := by
  cases q with
  | nil => rfl
  | cons m rest =>
    cases m with
    | payload c =>
      rw [payCount_cons_payload] at h1
      omega
    | close =>
      rw [closeCount_cons_close] at h2
      omega

theorem goodInput_append_payload {q : List MMsg} (hg : GoodInput q)
    (hc : closeCount q = 0) (m : String) :
    GoodInput (q ++ [MMsg.payload m]) := by
  induction q with
  | nil => trivial
  | cons x rest ih =>
    cases x with
    | payload c =>
      rw [closeCount_cons_payload] at hc
      exact ih hg hc
    | close =>
      rw [closeCount_cons_close] at hc
      omega

theorem phase_cases (p : ClosePhase) :
    (p = ClosePhase.idle ∨ p = ClosePhase.waitDrain) ∨
    (p = ClosePhase.waitClosed ∨ p = ClosePhase.done) := by
  cases p
  · exact Or.inl (Or.inl rfl)
  · exact Or.inl (Or.inr rfl)
  · exact Or.inr (Or.inl rfl)
  · exact Or.inr (Or.inr rfl)

theorem phase_not_both {p : ClosePhase}
    (h1 : p = ClosePhase.idle ∨ p = ClosePhase.waitDrain)
    (h2 : p = ClosePhase.waitClosed ∨ p = ClosePhase.done) : False := by
  rcases h1 with h1 | h1 <;> rcases h2 with h2 | h2 <;> rw [h1] at h2 <;> cases h2

theorem sysInv_start : SysInv Sys.start := by
  refine ⟨rfl, Nat.le_refl 0, rfl, rfl, Nat.le_refl 0, rfl, trivial, rfl,
    ?_, ?_, ?_, ?_, ?_, ?_⟩
  · intro hx
    rcases hx with hx | hx <;> cases hx
  · intro _
    exact ⟨rfl, rfl⟩
  · intro hx
    rcases hx with hx | hx <;> cases hx
  · intro hx
    rcases hx with hx | hx
    · simp [closedCount, Sys.start] at hx
    · cases hx
  · intro hx
    cases hx
  · intro hx
    cases hx

theorem sysInv_step {a b : Sys} (inv : SysInv a) (st : SysStep a b) : SysInv b := by
  obtain ⟨mpend, ackle, sentSplit, wpend, wwr, procSplit, good, waitingFalse,
    closeToken, noCloseEarly, drainedAtClose, closedOrigin, signalPhase,
    doneClosed⟩ := inv
  cases st with
  | logToWorker m h =>
    obtain ⟨hc0, hsf⟩ := noCloseEarly (Or.inl h)
    refine ⟨?_, ?_, ?_, wpend, wwr, procSplit, ?_, waitingFalse,
      ?_, ?_, ?_, ?_, ?_, ?_⟩
    · dsimp
      omega
    · dsimp
      omega
    · dsimp
      rw [payCount_append, payCount_singleton_payload]
      omega
    · exact goodInput_append_payload good hc0 m
    · intro hph
      dsimp at hph
      exact absurd (phase_not_both (Or.inl h) hph) id
    · intro _
      dsimp
      rw [closeCount_append, hc0]
      refine ⟨by simp [closeCount, List.count_cons], hsf⟩
    · intro hph
      dsimp at hph
      exact absurd (phase_not_both (Or.inl h) hph) id
    · intro hx
      dsimp at hx
      have hz := closedOrigin hx
      rw [hsf] at hz
      cases hz
    · intro hx
      dsimp at hx
      rw [hsf] at hx
      cases hx
    · intro hx
      dsimp at hx
      rw [h] at hx
      cases hx
  | startClose h =>
    refine ⟨mpend, ackle, sentSplit, wpend, wwr, procSplit, good, waitingFalse,
      ?_, ?_, ?_, ?_, ?_, ?_⟩
    · intro hph
      dsimp at hph
      rcases hph with hph | hph <;> cases hph
    · intro _
      exact noCloseEarly (Or.inl h)
    · intro hph
      dsimp at hph
      rcases hph with hph | hph <;> cases hph
    · exact closedOrigin
    · intro hx
      have hz := signalPhase hx
      rcases hz with hz | hz
      · rw [h] at hz
        cases hz
      · rw [h] at hz
        cases hz
    · intro hx
      dsimp at hx
      cases hx
  | drainResolved h1 h2 =>
    obtain ⟨hc0, hsf⟩ := noCloseEarly (Or.inr h1)
    have hacks : a.main.processedAcks = a.main.sent := by omega
    have hrec_le : a.worker.received ≤ a.main.sent := by omega
    have hacks_le : a.main.processedAcks ≤ a.worker.written := by omega
    have hall : a.worker.written = a.worker.received ∧
        payCount a.toWorker = 0 ∧ procCount a.toMain = 0 := by
      refine ⟨by omega, by omega, by omega⟩
    obtain ⟨hwr2, hpay0, hproc0⟩ := hall
    have hq : a.toWorker = [] := channel_empty hpay0 hc0
    refine ⟨?_, ?_, ?_, wpend, wwr, procSplit, ?_, waitingFalse,
      ?_, ?_, ?_, ?_, ?_, ?_⟩
    · dsimp
      omega
    · exact ackle
    · dsimp
      rw [payCount_append, hpay0, payCount_singleton_close]
      omega
    · dsimp
      rw [hq]
      trivial
    · intro _
      dsimp
      rw [closeCount_append, hc0, hsf]
      simp [closeCount, List.count_cons]
    · intro hph
      dsimp at hph
      rcases hph with hph | hph <;> cases hph
    · intro _
      dsimp
      rw [payCount_append, hpay0]
      refine ⟨hacks, hwr2, by simp [payCount], hproc0⟩
    · intro hx
      dsimp at hx
      rcases hx with hx | hx
      · have hz := closedOrigin (Or.inl hx)
        rw [hsf] at hz
        cases hz
      · cases hx
    · intro hx
      dsimp at hx
      rw [hsf] at hx
      cases hx
    · intro hx
      dsimp at hx
      cases hx
  | recvProcessed rest h =>
    have hproc1 : procCount a.toMain = procCount rest + 1 := by
      rw [h, procCount_cons_processed]
    have hph : a.main.phase = ClosePhase.idle ∨
        a.main.phase = ClosePhase.waitDrain := by
      rcases phase_cases a.main.phase with hx | hx
      · exact hx
      · obtain ⟨_, _, _, hpz⟩ := drainedAtClose hx
        omega
    obtain ⟨hc0, hsf⟩ := noCloseEarly hph
    have hw_le : a.main.processedAcks + 1 ≤ a.worker.written := by omega
    refine ⟨?_, ?_, sentSplit, wpend, wwr, ?_, good, waitingFalse,
      ?_, ?_, ?_, ?_, ?_, ?_⟩
    · dsimp
      omega
    · dsimp
      omega
    · dsimp
      omega
    · intro hph2
      dsimp at hph2
      exact absurd (phase_not_both hph hph2) id
    · intro _
      exact ⟨hc0, hsf⟩
    · intro hph2
      dsimp at hph2
      exact absurd (phase_not_both hph hph2) id
    · intro hx
      dsimp at hx
      have hcc2 : closedCount a.toMain = closedCount rest := by
        rw [h, closedCount_cons_processed]
      have hz := closedOrigin (by
        rcases hx with hx | hx
        · exact Or.inl (by omega)
        · exact Or.inr hx)
      rw [hsf] at hz
      cases hz
    · intro hx
      dsimp at hx
      rw [hsf] at hx
      cases hx
    · intro hx
      dsimp at hx
      rcases hph with hph | hph <;> rw [hph] at hx <;> cases hx
  | recvClosed rest h =>
    have hcc1 : closedCount a.toMain = closedCount rest + 1 := by
      rw [h, closedCount_cons_closed]
    have hsg : a.worker.closeSignalReceived = true :=
      closedOrigin (Or.inl (by omega))
    have hph := signalPhase hsg
    obtain ⟨hacks, hwr2, hpay0, hproc0⟩ := drainedAtClose hph
    refine ⟨mpend, ackle, sentSplit, wpend, wwr, ?_, good, waitingFalse,
      ?_, ?_, ?_, ?_, ?_, ?_⟩
    · dsimp
      rw [h, procCount_cons_closed] at procSplit
      exact procSplit
    · intro _
      exact closeToken hph
    · intro hph2
      dsimp at hph2
      exact absurd (phase_not_both hph2 hph) id
    · intro _
      dsimp
      refine ⟨hacks, hwr2, hpay0, ?_⟩
      rw [h, procCount_cons_closed] at hproc0
      exact hproc0
    · intro _
      exact hsg
    · intro hx
      dsimp at hx
      exact signalPhase hx
    · intro _
      rfl
  | finishClose h1 h2 =>
    refine ⟨mpend, ackle, sentSplit, wpend, wwr, procSplit, good, waitingFalse,
      ?_, ?_, ?_, ?_, ?_, ?_⟩
    · intro _
      exact closeToken (Or.inl h1)
    · intro hph2
      dsimp at hph2
      rcases hph2 with hph2 | hph2 <;> cases hph2
    · intro _
      exact drainedAtClose (Or.inl h1)
    · intro hx
      dsimp at hx
      exact closedOrigin (by
        rcases hx with hx | hx
        · exact Or.inl hx
        · exact Or.inr hx)
    · intro _
      exact Or.inr rfl
    · intro _
      exact h2
  | workerStep e w1 q1 out1 h =>
    cases e with
    | recv =>
      rcases hq : a.toWorker with _ | ⟨m0, q2⟩
      · rw [hq] at h
        simp [wstep] at h
      · cases m0 with
        | payload c =>
          have hph : a.main.phase = ClosePhase.idle ∨
              a.main.phase = ClosePhase.waitDrain := by
            rcases phase_cases a.main.phase with hx | hx
            · exact hx
            · obtain ⟨_, _, hpay0, _⟩ := drainedAtClose hx
              rw [hq, payCount_cons_payload] at hpay0
              omega
          obtain ⟨hc0, hsf⟩ := noCloseEarly hph
          rw [hq] at h
          simp only [wstep] at h
          cases h
          rw [hq] at good sentSplit
          rw [hq, closeCount_cons_payload] at hc0
          refine ⟨mpend, ackle, ?_, ?_, ?_, ?_, good, waitingFalse,
            ?_, ?_, ?_, ?_, ?_, ?_⟩
          · dsimp
            rw [payCount_cons_payload] at sentSplit
            omega
          · dsimp
            omega
          · dsimp
            omega
          · dsimp
            rw [List.append_nil]
            exact procSplit
          · intro hph2
            dsimp at hph2
            exact absurd (phase_not_both hph hph2) id
          · intro _
            exact ⟨hc0, hsf⟩
          · intro hph2
            dsimp at hph2
            exact absurd (phase_not_both hph hph2) id
          · intro hx
            dsimp at hx
            rw [List.append_nil] at hx
            have hz := closedOrigin hx
            rw [hsf] at hz
            cases hz
          · intro hx
            dsimp at hx
            rw [hsf] at hx
            cases hx
          · intro hx
            dsimp at hx
            rcases hph with hph | hph <;> rw [hph] at hx <;> cases hx
        | close =>
          have hq2 : q2 = [] := by
            rw [hq] at good
            simpa [GoodInput] using good
          subst hq2
          have hph : a.main.phase = ClosePhase.waitClosed ∨
              a.main.phase = ClosePhase.done := by
            rcases phase_cases a.main.phase with hx | hx
            · obtain ⟨hc0, _⟩ := noCloseEarly hx
              rw [hq, closeCount_cons_close] at hc0
              omega
            · exact hx
          obtain ⟨hacks, hwr2, hpay0, hproc0⟩ := drainedAtClose hph
          have hpend0 : a.worker.pending = 0 := by omega
          rw [hq] at h
          simp only [wstep] at h
          rw [if_pos hpend0] at h
          cases h
          refine ⟨mpend, ackle, ?_, wpend, wwr, ?_, trivial, waitingFalse,
            ?_, ?_, ?_, ?_, ?_, ?_⟩
          · dsimp
            simp [payCount]
            omega
          · dsimp
            rw [procCount_append, procCount_singleton_closed]
            omega
          · intro _
            dsimp
            simp [closeCount]
          · intro hph2
            dsimp at hph2
            exact absurd (phase_not_both hph2 hph) id
          · intro _
            dsimp
            refine ⟨hacks, hwr2, by simp [payCount], ?_⟩
            rw [procCount_append, hproc0, procCount_singleton_closed]
          · intro _
            rfl
          · intro _
            exact hph
          · exact doneClosed
    | complete =>
      simp only [wstep] at h
      by_cases hpend : a.worker.pending = 0
      · rw [if_pos hpend] at h
        cases h
      · rw [if_neg hpend] at h
        have hph : a.main.phase = ClosePhase.idle ∨
            a.main.phase = ClosePhase.waitDrain := by
          rcases phase_cases a.main.phase with hx | hx
          · exact hx
          · obtain ⟨_, hwr2, _, _⟩ := drainedAtClose hx
            omega
        obtain ⟨hc0, hsf⟩ := noCloseEarly hph
        have hfire : (a.worker.closeSignalReceived &&
            (a.worker.pending - 1 == 0)) = false := by
          rw [hsf]
          simp
        rw [hfire] at h
        simp only [Bool.false_eq_true, if_false] at h
        cases h
        refine ⟨mpend, ackle, sentSplit, ?_, ?_, ?_, good, waitingFalse,
          ?_, ?_, ?_, ?_, ?_, ?_⟩
        · dsimp
          omega
        · dsimp
          omega
        · dsimp
          rw [procCount_append, procCount_singleton_processed]
          omega
        · intro hph2
          dsimp at hph2
          exact absurd (phase_not_both hph hph2) id
        · intro _
          exact ⟨hc0, hsf⟩
        · intro hph2
          dsimp at hph2
          exact absurd (phase_not_both hph hph2) id
        · intro hx
          dsimp at hx
          rw [closedCount_append, closedCount_singleton_processed] at hx
          have hz := closedOrigin (by
            rcases hx with hx | hx
            · exact Or.inl (by omega)
            · exact Or.inr hx)
          rw [hsf] at hz
          cases hz
        · intro hx
          dsimp at hx
          rw [hsf] at hx
          cases hx
        · intro hx
          dsimp at hx
          rcases hph with hph | hph <;> rw [hph] at hx <;> cases hx
    | resume =>
      simp [wstep, waitingFalse] at h


theorem sysReach_inv {sys : Sys} (h : SysReach sys) : SysInv sys := by
  induction h with
  | start => exact sysInv_start
  | step _ hstep ih => exact sysInv_step ih hstep

/-- C2: in every reachable state of the composed main/worker system (log
calls followed by one `closeWorker()`), whenever the main side has received
the terminal "closed" acknowledgment (`isClosed`), every record it ever
sent has already been acknowledged as processed and `pendingMessages` is
zero; and the channel reaches the terminated (`done`) state only with the
"closed" acknowledgment received and `pendingMessages` zero — drain then
close, never close before drain. -/
theorem c2_drain_before_close (sys : Sys) (h : SysReach sys) :
    (sys.main.isClosed = true →
      sys.main.processedAcks = sys.main.sent ∧ sys.main.pendingMessages = 0) ∧
    (sys.main.phase = ClosePhase.done →
      sys.main.isClosed = true ∧ sys.main.pendingMessages = 0) := by
  obtain ⟨mpend, ackle, sentSplit, wpend, wwr, procSplit, good, waitingFalse,
    closeToken, noCloseEarly, drainedAtClose, closedOrigin, signalPhase,
    doneClosed⟩ := sysReach_inv h
  constructor
  · intro hx
    have hph := signalPhase (closedOrigin (Or.inr hx))
    obtain ⟨hacks, _, _, _⟩ := drainedAtClose hph
    exact ⟨hacks, by omega⟩
  · intro hx
    obtain ⟨hacks, _, _, _⟩ := drainedAtClose (Or.inr hx)
    exact ⟨doneClosed hx, by omega⟩

/-- Witness for `c2_drain_before_close`: a complete concrete run — one log
record, its append and acknowledgment, then the close handshake — reaches
the terminated state, where the theorem yields `isClosed` with zero pending
messages and every sent record acknowledged. -/
theorem c2_drain_before_close_witness :
    ∃ sys : Sys, SysReach sys ∧ sys.main.phase = ClosePhase.done ∧
      sys.main.isClosed = true ∧ sys.main.pendingMessages = 0 ∧
      sys.main.processedAcks = sys.main.sent := by
  have h1 := SysReach.step SysReach.start
    (SysStep.logToWorker Sys.start "r1" rfl)
  have h2 := SysReach.step h1 (SysStep.workerStep _ WEvent.recv _ _ _ rfl)
  have h3 := SysReach.step h2 (SysStep.workerStep _ WEvent.complete _ _ _ rfl)
  have h4 := SysReach.step h3 (SysStep.recvProcessed _ [] rfl)
  have h5 := SysReach.step h4 (SysStep.startClose _ rfl)
  have h6 := SysReach.step h5 (SysStep.drainResolved _ rfl rfl)
  have h7 := SysReach.step h6 (SysStep.workerStep _ WEvent.recv _ _ _ rfl)
  have h8 := SysReach.step h7 (SysStep.recvClosed _ [] rfl)
  have h9 := SysReach.step h8 (SysStep.finishClose _ rfl rfl)
  have hc := c2_drain_before_close _ h9
  refine ⟨_, h9, rfl, ?_, ?_, ?_⟩
  · exact (hc.2 rfl).1
  · exact (hc.2 rfl).2
  · exact (hc.1 (hc.2 rfl).1).1
